import Mathlib

/-!
# ISLE `Logger` (include/logger.h): a shallow embedding

The class `ISLE::Logger` owns one `std::ofstream out_log` and also writes to
`std::cout`.  Every member function assembles a text fragment in a local
`std::ostringstream` and hands it to `print_stringstream`.

Conventions of the embedding.

* A stream is the string of characters written to it so far; the log stream
  is taken to be open and good, so every insertion succeeds.
* `doc_id_t` and `word_id_t` (declared in `types.h`, which is not part of the
  sources) are unsigned integer types: values are naturals, loop counters
  are naturals, and `operator<<` prints them in decimal.
* `int` has 32 bits and `size_t` is wider; storing a `size_t` in an `int`
  keeps the value modulo 2^32 (`toInt`).
* `FPTYPE` (declared in `types.h`) is a floating-point type.  The functions
  are parametric in the value type `F` and in `showF`, the text that
  `operator<<` produces for a value.
* A `std::vector` or a pointer to an array is a `List`; an access outside the
  list is undefined behaviour in C++ and makes the embedded function return
  `none`.
* `std::sort` is a library routine: it is a parameter of the embedding,
  constrained by what the C++ standard guarantees (`StdSort`).  The routine
  of libstdc++ is embedded as `libstdcxx_sort`, to run the code on inputs
  where the standard leaves the order of equal keys open.
-/

set_option maxRecDepth 100000

namespace ISLE

/-! ## Text produced by `operator<<` -/

/-- Decimal text of an unsigned integer. -/
def showNat (n : Nat) : String := Nat.repr n

/-- Decimal text of a signed integer. -/
def showInt : Int → String
  | Int.ofNat n => showNat n
  | Int.negSucc n => "-" ++ showNat (n + 1)

/-- Square root of a perfect square (rounded down otherwise), used to run the
model on examples in place of `std::sqrt`. -/
def natSqrt (n : Nat) : Nat :=
  (List.range (n + 1)).foldl (fun r k => if k * k ≤ n then k else r) 0

/-- Text of `std::setw(w) << std::left << s`: the string `s` padded on the
right with blanks up to width `w` (never cut). -/
def setw_left (w : Nat) (s : String) : String :=
  s ++ String.mk (List.replicate (w - s.length) ' ')

/-- Concatenation of a list of fragments, first fragment first. -/
def concatAll : List String → String
  | [] => ""
  | s :: rest => s ++ concatAll rest

/-- Value of a `size_t` converted to `int` (32 bits, two's complement), as
happens when `closest_docs[t].size()` is stored in the `int` component of
`std::pair<int, doc_id_t>`. -/
def toInt (n : Nat) : Int :=
  if n % 4294967296 < 2147483648 then ((n % 4294967296 : Nat) : Int)
  else ((n % 4294967296 : Nat) : Int) - 4294967296

/-- The loop `for (i = 0; i < n; ++i) body(i)` over a state that may become
undefined: the iterations run in the order `0, 1, ..., n-1`. -/
def forLoop {σ : Type} (body : Nat → σ → Option σ) : Nat → σ → Option σ
  | 0, s => some s
  | n + 1, s => (forLoop body n s).bind (body n)

/-! ## The logger and its two write primitives -/

/-- State of the two sinks: the characters written so far to the log file
`out_log` and to the terminal `std::cout`. -/
structure Logger where
  out_log : String
  cout : String
deriving DecidableEq

/-- Model of `Logger::print_string`. -/
def print_string (L : Logger) (str : String) (print_to_terminal : Bool) : Logger :=
  let out_log := L.out_log ++ str
  if print_to_terminal then
    { out_log := out_log, cout := L.cout ++ str }
  else
    { out_log := out_log, cout := L.cout }

/-- Model of `Logger::print_stringstream`; the stream argument is given by its
contents `stream.str()`. -/
def print_stringstream (L : Logger) (stream : String) (print_to_terminal : Bool) : Logger :=
  let out_log := L.out_log ++ stream
  if print_to_terminal then
    { out_log := out_log, cout := L.cout ++ stream }
  else
    { out_log := out_log, cout := L.cout }

/-- One call of a write primitive. -/
inductive WriteCall where
  | text (str : String) (print_to_terminal : Bool)
  | buffer (stream : String) (print_to_terminal : Bool)
deriving DecidableEq

/-- The fragment a call carries. -/
def WriteCall.fragment : WriteCall → String
  | WriteCall.text str _ => str
  | WriteCall.buffer stream _ => stream

/-- The terminal flag of a call. -/
def WriteCall.toTerminal : WriteCall → Bool
  | WriteCall.text _ p => p
  | WriteCall.buffer _ p => p

/-- Effect of one call on the logger. -/
def WriteCall.run (L : Logger) : WriteCall → Logger
  | WriteCall.text str p => print_string L str p
  | WriteCall.buffer stream p => print_stringstream L stream p

/-- Effect of a sequence of calls, first call first. -/
def runCalls (L : Logger) (calls : List WriteCall) : Logger :=
  calls.foldl WriteCall.run L

/-! ## `print_catch_words` -/

/-- One iteration of the loop over `catchwords` in `print_catch_words`. -/
def catch_words_step {F : Type} (showF : F → String) (catch_threshold : List F)
    (vocab_words : List String) (ostr : String) (w : Nat) : Option String :=
  match vocab_words[w]?, catch_threshold[w]? with
  | some word, some thr => some (ostr ++ word ++ ":" ++ showNat w ++ "(" ++ showF thr ++ ") ")
  | _, _ => none

/-- The loop over `catchwords` in `print_catch_words`. -/
def catch_words_loop {F : Type} (showF : F → String) (catch_threshold : List F)
    (vocab_words : List String) : List Nat → String → Option String
  | [], ostr => some ostr
  | w :: rest, ostr =>
    (catch_words_step showF catch_threshold vocab_words ostr w).bind
      (catch_words_loop showF catch_threshold vocab_words rest)

/-- Contents of the local `ostr` of `print_catch_words` when it is handed to
`print_stringstream`.  The argument `topic` is not used by the body. -/
def print_catch_words_ostr {F : Type} (showF : F → String) (_topic : Nat)
    (catch_threshold : List F) (catchwords : List Nat) (vocab_words : List String) :
    Option String :=
  (catch_words_loop showF catch_threshold vocab_words catchwords ("" ++ "Catchwords:" ++ "\n")).map
    (fun ostr => ostr ++ "\n")

/-- Model of `Logger::print_catch_words`. -/
def print_catch_words {F : Type} (showF : F → String) (L : Logger) (topic : Nat)
    (catch_threshold : List F) (catchwords : List Nat) (vocab_words : List String)
    (print_to_terminal : Bool) : Option Logger :=
  (print_catch_words_ostr showF topic catch_threshold catchwords vocab_words).map
    (fun ostr => print_stringstream L ostr print_to_terminal)

/-! ## `print_cluster_details` -/

/-- The comparison handed to `std::sort` in `print_cluster_details`:
`left.first < right.first`. -/
def cluster_comp (left right : Int × Nat) : Bool := decide (left.1 < right.1)

/-- What the C++ standard guarantees of `std::sort(first, last, comp)`: the
range afterwards is a rearrangement of the range before, and no element is
ordered by `comp` strictly before an element that precedes it.  The order of
elements that `comp` does not separate is not determined. -/
structure StdSort (α : Type) (comp : α → α → Bool) where
  sort : List α → List α
  perm : ∀ l, List.Perm (sort l) l
  sorted : ∀ l, List.Pairwise (fun a b => comp b a = false) (sort l)

/-- One iteration of the loop that fills `cluster_sizes`. -/
def cluster_sizes_step (closest_docs : List (List Nat)) (t : Nat)
    (cluster_sizes : List (Int × Nat)) : Option (List (Int × Nat)) :=
  match closest_docs[t]? with
  | some docs => some (cluster_sizes ++ [(toInt docs.length, t)])
  | none => none

/-- The values one body line displays. -/
structure ClusterLine (F : Type) where
  id : Nat
  size : Int
  distsq : F
  raw_coh : F
  flt_coh : F
  ncatch : Nat

/-- Text of one body line of `print_cluster_details`. -/
def cluster_line {F : Type} (showF : F → String) (r : ClusterLine F) : String :=
  setw_left 12 "Cluster" ++ showNat r.id
    ++ setw_left 12 "  size:" ++ showInt r.size
    ++ setw_left 15 "  distsq_sum:" ++ showF r.distsq
    ++ setw_left 15 "  raw_coh:" ++ showF r.raw_coh
    ++ setw_left 15 "  flt_coh:" ++ showF r.flt_coh
    ++ "  #catchwords: " ++ showNat r.ncatch ++ "\n"

/-- One iteration of the second loop of `print_cluster_details`; the state is
the pair of `ostr` and `catchless`. -/
def cluster_body {F : Type} (showF : F → String) (distsq : List F)
    (catchwords : List (List Nat)) (coherences nl_coherences : List F)
    (cluster_sizes : List (Int × Nat)) (i : Nat) (st : String × Int) :
    Option (String × Int) :=
  match cluster_sizes[i]? with
  | none => none
  | some p =>
    let t := p.2
    match distsq[i]?, nl_coherences[i]?, coherences[i]?, catchwords[t]? with
    | some d, some nl, some c, some cw =>
      let ostr := st.1 ++ cluster_line showF
        { id := t, size := p.1, distsq := d, raw_coh := nl, flt_coh := c, ncatch := cw.length }
      let catchless := if cw.length = 0 then st.2 + 1 else st.2
      some (ostr, catchless)
    | _, _, _, _ => none

/-- Contents of the local `ostr` of `print_cluster_details` when it is handed
to `print_stringstream`. -/
def print_cluster_details_ostr {F : Type} (S : StdSort (Int × Nat) cluster_comp)
    (showF : F → String) (num_topics : Nat) (distsq : List F)
    (catchwords : List (List Nat)) (closest_docs : List (List Nat))
    (coherences nl_coherences : List F) : Option String :=
  (forLoop (cluster_sizes_step closest_docs) num_topics []).bind fun cluster_sizes =>
    let cluster_sizes := S.sort cluster_sizes
    (forLoop (cluster_body showF distsq catchwords coherences nl_coherences cluster_sizes)
      num_topics ("", 0)).map fun st =>
      st.1 ++ "\n#Topics with no catchwords: " ++ showInt st.2
        ++ "(" ++ showNat num_topics ++ ")" ++ "\n"

/-- Model of `Logger::print_cluster_details`. -/
def print_cluster_details {F : Type} (S : StdSort (Int × Nat) cluster_comp)
    (showF : F → String) (L : Logger) (num_topics : Nat) (distsq : List F)
    (catchwords : List (List Nat)) (closest_docs : List (List Nat))
    (coherences nl_coherences : List F) (print_to_terminal : Bool) : Option Logger :=
  (print_cluster_details_ostr S showF num_topics distsq catchwords closest_docs
    coherences nl_coherences).map fun ostr => print_stringstream L ostr print_to_terminal

/-! ## `print_eigen_data` -/

/-- One iteration of the first loop of `print_eigen_data`; `sqrt` stands for
`std::sqrt` on `FPTYPE`. -/
def eigvals_step {F : Type} (showF : F → String) (sqrt : F → F) (evalues : List F)
    (t : Nat) (ostr : String) : Option String :=
  match evalues[t]? with
  | some e => some (ostr ++ "(" ++ showNat t ++ "): " ++ showF (sqrt e) ++ "\t")
  | none => none

/-- One iteration of the loop `eig_sum_slabs[t / 100] += evalues(t)`. -/
def slab_sum_step {F : Type} [Add F] (evalues : List F) (t : Nat)
    (eig_sum_slabs : List F) : Option (List F) :=
  match evalues[t]?, eig_sum_slabs[t / 100]? with
  | some e, some s => some (eig_sum_slabs.set (t / 100) (s + e))
  | _, _ => none

/-- Model of `std::accumulate(first, last, init)`: a left fold of `+`. -/
def accumulate {F : Type} [Add F] (init : F) (range : List F) : F :=
  range.foldl (fun acc x => acc + x) init

/-- One iteration of the loop that writes the slab lines; the range
`[begin, begin + 1 + slab)` has to lie inside `eig_sum_slabs`.  The counter
`slab` is a non-negative `int`, printed in decimal. -/
def slab_line_step {F : Type} [Add F] [Zero F] (showF : F → String)
    (eig_sum_slabs : List F) (slab : Nat) (ostr : String) : Option String :=
  if 1 + slab ≤ eig_sum_slabs.length then
    some (ostr ++ "Sum of Top-" ++ showNat ((slab + 1) * 100) ++ " eig vals: "
      ++ showF (accumulate 0 (eig_sum_slabs.take (1 + slab))) ++ "\n")
  else none

/-- Contents of the local `ostr` of `print_eigen_data` when it is handed to
`print_stringstream`. -/
def print_eigen_data_ostr {F : Type} [Add F] [Zero F] (showF : F → String)
    (sqrt : F → F) (evalues : List F) (num_topics : Nat) : Option String :=
  (forLoop (eigvals_step showF sqrt evalues) num_topics ("" ++ "Eigvals:  ")).bind fun ostr =>
    let ostr := ostr ++ "\n"
    (forLoop (slab_sum_step evalues) num_topics
      (List.replicate (num_topics / 100 + 1) 0)).bind fun eig_sum_slabs =>
      forLoop (slab_line_step showF eig_sum_slabs) (num_topics / 100) ostr

/-- Model of `Logger::print_eigen_data`. -/
def print_eigen_data {F : Type} [Add F] [Zero F] (showF : F → String) (sqrt : F → F)
    (L : Logger) (evalues : List F) (num_topics : Nat) (print_to_terminal : Bool) :
    Option Logger :=
  (print_eigen_data_ostr showF sqrt evalues num_topics).map fun ostr =>
    print_stringstream L ostr print_to_terminal

/-! ## `std::sort` as implemented by libstdc++

The routines of `bits/stl_algo.h` and `bits/stl_heap.h` (GCC), on a vector
of `std::pair<int, doc_id_t>` given as a list and with iterators given as
positions. -/

/-- Element read `*(first + i)`. -/
def elem (a : List (Int × Nat)) (i : Nat) : Int × Nat := a.getD i (0, 0)

/-- Model of `std::iter_swap` on the positions `i` and `j` of the range. -/
def iter_swap (a : List (Int × Nat)) (i j : Nat) : List (Int × Nat) :=
  (a.set i (elem a j)).set j (elem a i)

/-- Model of `std::__move_median_to_first(result, x, y, z, comp)`. -/
def move_median_to_first (a : List (Int × Nat)) (result x y z : Nat) : List (Int × Nat) :=
  if cluster_comp (elem a x) (elem a y) then
    if cluster_comp (elem a y) (elem a z) then iter_swap a result y
    else if cluster_comp (elem a x) (elem a z) then iter_swap a result z
    else iter_swap a result x
  else if cluster_comp (elem a x) (elem a z) then iter_swap a result x
  else if cluster_comp (elem a y) (elem a z) then iter_swap a result z
  else iter_swap a result y

/-- The loop `while (comp(first, pivot)) ++first;` of `std::__unguarded_partition`.
The fuel bounds the steps by the length of the range; a run of the library
stops earlier, at the pivot or at an element swapped before. -/
def scan_up (a : List (Int × Nat)) (pivot : Nat) : Nat → Nat → Nat
  | 0, first => first
  | fuel + 1, first =>
    if cluster_comp (elem a first) (elem a pivot) then scan_up a pivot fuel (first + 1)
    else first

/-- The loop `while (comp(pivot, last)) --last;` of `std::__unguarded_partition`. -/
def scan_down (a : List (Int × Nat)) (pivot : Nat) : Nat → Nat → Nat
  | 0, last => last
  | fuel + 1, last =>
    if cluster_comp (elem a pivot) (elem a last) then scan_down a pivot fuel (last - 1)
    else last

/-- Model of `std::__unguarded_partition(first, last, pivot, comp)`: returns the
range and the cut. -/
def unguarded_partition (pivot : Nat) :
    Nat → List (Int × Nat) → Nat → Nat → List (Int × Nat) × Nat
  | 0, a, first, _ => (a, first)
  | fuel + 1, a, first, last =>
    let first := scan_up a pivot a.length first
    let last := last - 1
    let last := scan_down a pivot a.length last
    if first < last then unguarded_partition pivot fuel (iter_swap a first last) (first + 1) last
    else (a, first)

/-- Model of `std::__unguarded_partition_pivot(first, last, comp)`. -/
def unguarded_partition_pivot (a : List (Int × Nat)) (first last : Nat) :
    List (Int × Nat) × Nat :=
  let mid := first + (last - first) / 2
  let a := move_median_to_first a first (first + 1) mid (last - 1)
  unguarded_partition first a.length a (first + 1) last

/-- The loop of `std::__unguarded_linear_insert`: elements greater than `val`
move one position up. -/
def unguarded_linear_insert_loop (val : Int × Nat) :
    Nat → List (Int × Nat) → Nat → List (Int × Nat) × Nat
  | 0, a, last => (a, last)
  | fuel + 1, a, last =>
    let next := last - 1
    if cluster_comp val (elem a next) then
      unguarded_linear_insert_loop val fuel (a.set last (elem a next)) next
    else (a, last)

/-- Model of `std::__unguarded_linear_insert(last, comp)`. -/
def unguarded_linear_insert (a : List (Int × Nat)) (last : Nat) : List (Int × Nat) :=
  let val := elem a last
  let r := unguarded_linear_insert_loop val last a last
  r.1.set r.2 val

/-- Model of `std::__insertion_sort(first, last, comp)`; the first branch is
`std::move_backward(first, i, i + 1)` followed by `*first = val`. -/
def insertion_sort (a : List (Int × Nat)) (first last : Nat) : List (Int × Nat) :=
  if first = last then a
  else
    (List.range' (first + 1) (last - (first + 1))).foldl (fun a i =>
      if cluster_comp (elem a i) (elem a first) then
        let val := elem a i
        a.take first ++ val :: ((a.drop first).take (i - first) ++ a.drop (i + 1))
      else unguarded_linear_insert a i) a

/-- Model of `std::__unguarded_insertion_sort(first, last, comp)`. -/
def unguarded_insertion_sort (a : List (Int × Nat)) (first last : Nat) : List (Int × Nat) :=
  (List.range' first (last - first)).foldl (fun a i => unguarded_linear_insert a i) a

/-- Model of `std::__final_insertion_sort(first, last, comp)`, with the
threshold `_S_threshold = 16`. -/
def final_insertion_sort (a : List (Int × Nat)) (first last : Nat) : List (Int × Nat) :=
  if last - first > 16 then
    unguarded_insertion_sort (insertion_sort a first (first + 16)) (first + 16) last
  else insertion_sort a first last

/-- The loop of `std::__push_heap`. -/
def push_heap_loop (first topIndex : Nat) (value : Int × Nat) :
    Nat → List (Int × Nat) → Nat → List (Int × Nat) × Nat
  | 0, a, holeIndex => (a, holeIndex)
  | fuel + 1, a, holeIndex =>
    let parent := (holeIndex - 1) / 2
    if holeIndex > topIndex && cluster_comp (elem a (first + parent)) value then
      push_heap_loop first topIndex value fuel
        (a.set (first + holeIndex) (elem a (first + parent))) parent
    else (a, holeIndex)

/-- Model of `std::__push_heap(first, holeIndex, topIndex, value, comp)`. -/
def push_heap (a : List (Int × Nat)) (first holeIndex topIndex : Nat) (value : Int × Nat) :
    List (Int × Nat) :=
  let r := push_heap_loop first topIndex value (holeIndex + 1) a holeIndex
  r.1.set (first + r.2) value

/-- The loop of `std::__adjust_heap`. -/
def adjust_heap_loop (first len : Nat) :
    Nat → List (Int × Nat) → Nat → Nat → List (Int × Nat) × Nat × Nat
  | 0, a, holeIndex, secondChild => (a, holeIndex, secondChild)
  | fuel + 1, a, holeIndex, secondChild =>
    if secondChild < (len - 1) / 2 then
      let secondChild := 2 * (secondChild + 1)
      let secondChild :=
        if cluster_comp (elem a (first + secondChild)) (elem a (first + (secondChild - 1)))
        then secondChild - 1 else secondChild
      adjust_heap_loop first len fuel (a.set (first + holeIndex) (elem a (first + secondChild)))
        secondChild secondChild
    else (a, holeIndex, secondChild)

/-- Model of `std::__adjust_heap(first, holeIndex, len, value, comp)`. -/
def adjust_heap (a : List (Int × Nat)) (first holeIndex len : Nat) (value : Int × Nat) :
    List (Int × Nat) :=
  let topIndex := holeIndex
  let r := adjust_heap_loop first len len a holeIndex holeIndex
  let a := r.1
  let holeIndex := r.2.1
  let secondChild := r.2.2
  if len % 2 = 0 && secondChild = (len - 2) / 2 then
    let secondChild := 2 * (secondChild + 1)
    let a := a.set (first + holeIndex) (elem a (first + (secondChild - 1)))
    push_heap a first (secondChild - 1) topIndex value
  else push_heap a first holeIndex topIndex value

/-- Model of `std::__pop_heap(first, last, result, comp)`. -/
def pop_heap (a : List (Int × Nat)) (first last result : Nat) : List (Int × Nat) :=
  let value := elem a result
  let a := a.set result (elem a first)
  adjust_heap a first 0 (last - first) value

/-- Model of `std::__make_heap(first, last, comp)`: `parent` runs from
`(len - 2) / 2` down to 0. -/
def make_heap (a : List (Int × Nat)) (first last : Nat) : List (Int × Nat) :=
  if last - first < 2 then a
  else
    let len := last - first
    ((List.range ((len - 2) / 2 + 1)).reverse).foldl (fun a parent =>
      adjust_heap a first parent len (elem a (first + parent))) a

/-- Model of `std::__heap_select(first, middle, last, comp)`. -/
def heap_select (a : List (Int × Nat)) (first middle last : Nat) : List (Int × Nat) :=
  (List.range' middle (last - middle)).foldl (fun a i =>
    if cluster_comp (elem a i) (elem a first) then pop_heap a first middle i else a)
    (make_heap a first middle)

/-- Model of `std::__sort_heap(first, last, comp)`. -/
def sort_heap (a : List (Int × Nat)) (first last : Nat) : List (Int × Nat) :=
  ((List.range' (first + 1) (last - (first + 1))).reverse).foldl (fun a last =>
    pop_heap a first last last) a

/-- Model of `std::__partial_sort(first, middle, last, comp)`, the heap sort
that `std::__introsort_loop` falls back to. -/
def heap_sort (a : List (Int × Nat)) (first middle last : Nat) : List (Int × Nat) :=
  sort_heap (heap_select a first middle last) first middle

/-- Model of `std::__introsort_loop(first, last, depth_limit, comp)`: while
the range has more than 16 elements, heap sort when the depth limit is used
up, else partition, recurse on the upper part and go on with the lower. -/
def introsort_loop : Nat → List (Int × Nat) → Nat → Nat → List (Int × Nat)
  | 0, a, first, last =>
    if last - first > 16 then heap_sort a first last last else a
  | depth_limit + 1, a, first, last =>
    if last - first > 16 then
      let r := unguarded_partition_pivot a first last
      let a := introsort_loop depth_limit r.1 r.2 last
      introsort_loop depth_limit a first r.2
    else a

/-- Halving loop behind `lg`. -/
def lg_loop : Nat → Nat → Nat
  | 0, _ => 0
  | fuel + 1, n => if n < 2 then 0 else lg_loop fuel (n / 2) + 1

/-- Model of `std::__lg`: the position of the highest set bit. -/
def lg (n : Nat) : Nat := lg_loop n n

/-- Model of `std::sort(first, last, comp)` of libstdc++ (`std::__sort`) on
the whole vector, for the element type and the comparison of
`print_cluster_details`. -/
def libstdcxx_sort (a : List (Int × Nat)) : List (Int × Nat) :=
  if a.length = 0 then a
  else final_insertion_sort (introsort_loop (lg a.length * 2) a 0 a.length) 0 a.length

/-- The guarantee of `std::sort` on one input `l` and output `r`. -/
def MeetsSortGuarantee (l r : List (Int × Nat)) : Prop :=
  List.Perm r l ∧ List.Pairwise (fun a b => cluster_comp b a = false) r

instance (l r : List (Int × Nat)) : Decidable (MeetsSortGuarantee l r) :=
  inferInstanceAs (Decidable (List.Perm r l ∧
    List.Pairwise (fun a b => cluster_comp b a = false) r))

/-! ## Sorting routines that meet the `std::sort` guarantee -/

/-- Order used by `stable_sorter`: by first component only. -/
def keyLe (a b : Int × Nat) : Prop := a.1 ≤ b.1

instance : DecidableRel keyLe := fun a b => inferInstanceAs (Decidable (a.1 ≤ b.1))

instance : IsTotal (Int × Nat) keyLe := ⟨fun a b => Int.le_total a.1 b.1⟩

instance : IsTrans (Int × Nat) keyLe := ⟨fun _ _ _ h₁ h₂ => Int.le_trans h₁ h₂⟩

/-- Insertion sort by the first component: a routine that meets the
`std::sort` guarantee and keeps equal keys in their input order. -/
def stable_sorter : StdSort (Int × Nat) cluster_comp where
  sort := List.insertionSort keyLe
  perm := List.perm_insertionSort keyLe
  sorted := fun l =>
    (List.sorted_insertionSort keyLe l).imp (fun {a b} h => by
      simp only [cluster_comp, decide_eq_false_iff_not, not_lt]; exact h)

/-- The result of `libstdcxx_sort`, checked against the guarantee on the input
at hand.  The check does not change the result wherever `libstdcxx_sort`
sorts its input. -/
def libstdcxx_sort_checked (l : List (Int × Nat)) : List (Int × Nat) :=
  if MeetsSortGuarantee l (libstdcxx_sort l) then libstdcxx_sort l
  else List.insertionSort keyLe l

/-- The routine of libstdc++ as a `StdSort`; the check in
`libstdcxx_sort_checked` is what carries the two proofs. -/
def libstdcxx_sorter : StdSort (Int × Nat) cluster_comp where
  sort := libstdcxx_sort_checked
  perm := fun l => by
    unfold libstdcxx_sort_checked
    by_cases h : MeetsSortGuarantee l (libstdcxx_sort l)
    · rw [if_pos h]; exact h.1
    · rw [if_neg h]; exact List.perm_insertionSort keyLe l
  sorted := fun l => by
    unfold libstdcxx_sort_checked
    by_cases h : MeetsSortGuarantee l (libstdcxx_sort l)
    · rw [if_pos h]; exact h.2
    · rw [if_neg h]
      exact (List.sorted_insertionSort keyLe l).imp (fun {a b} h => by
        simp only [cluster_comp, decide_eq_false_iff_not, not_lt]; exact h)

/-! ## The constructor -/

/-- State of a `std::ofstream` as far as opening it is concerned: whether a
file is open, whether `failbit` is set, and whether the exception mask
`exceptions()` holds `failbit`. -/
structure OfStream where
  is_open : Bool
  failbit : Bool
  throws_on_failbit : Bool
deriving DecidableEq

/-- A default-constructed `std::ofstream`, which is what the member `out_log`
is when the body of the constructor starts: no file open, state good,
exception mask `goodbit`. -/
def OfStream.fresh : OfStream :=
  { is_open := false, failbit := false, throws_on_failbit := false }

/-- Model of `std::ofstream::open`; `opens` tells whether the file system lets
the file be opened.  When the file cannot be opened (or the stream is open
already) the call does `setstate(failbit)`, and that throws
`std::ios_base::failure` only if the exception mask holds `failbit`. -/
def ofstream_open (s : OfStream) (opens : Bool) : Except String OfStream :=
  if opens && !s.is_open then Except.ok { s with is_open := true }
  else if s.throws_on_failbit then Except.error "ios_base::failure"
  else Except.ok { s with failbit := true }

/-- How the constructor ends: it returns, leaving the member `out_log` in some
state, or the process exits with a status. -/
inductive Construction where
  | returned (out_log : OfStream)
  | exited (status : Int)
deriving DecidableEq

/-- Model of the constructor `Logger::Logger(filename)`: `open` inside `try`,
`exit(-1)` in the handler of `std::ios_base::failure`. -/
def Logger_ctor (opens : Bool) : Construction :=
  match ofstream_open OfStream.fresh opens with
  | Except.ok out_log => Construction.returned out_log
  | Except.error _ => Construction.exited (-1)

/-! ## Vocabulary of the statements -/

/-- The entries of the five parallel arrays of `print_cluster_details` that
belong to one topic. -/
structure TopicInput (F : Type) where
  distsq : F
  catchwords : List Nat
  closest_docs : List Nat
  coherence : F
  nl_coherence : F

/-- Two topics, used as an example input: distance 10, no catchword, 3
closest documents, coherences 1 and 3; distance 20, 2 catchwords, 7 closest
documents, coherences 2 and 4. -/
def two_topics : List (TopicInput Nat) :=
  [TopicInput.mk 10 [] [1, 2, 3] 1 3, TopicInput.mk 20 [4, 5] [1, 2, 3, 4, 5, 6, 7] 2 4]

/-- The topics of `two_topics` in the other order. -/
def two_topics_swapped : List (TopicInput Nat) :=
  [TopicInput.mk 20 [4, 5] [1, 2, 3, 4, 5, 6, 7] 2 4, TopicInput.mk 10 [] [1, 2, 3] 1 3]

/-- Number of newline characters of a text. -/
def newlines (s : String) : Nat := s.data.count '\n'

/-! ## Auxiliary facts -/

theorem forLoop_succ {σ : Type} (body : Nat → σ → Option σ) (n : Nat) (s : σ) :
    forLoop body (n + 1) s = (forLoop body n s).bind (body n) := rfl

theorem concatAll_append (a b : List String) :
    concatAll (a ++ b) = concatAll a ++ concatAll b := by
  induction a with
  | nil => simp [concatAll]
  | cons x xs ih => simp [concatAll, ih, String.append_assoc]

theorem concatAll_singleton (s : String) : concatAll [s] = s := by
  simp [concatAll]

/-! ### The write primitives -/

theorem print_string_out_log (L : Logger) (str : String) (p : Bool) :
    (print_string L str p).out_log = L.out_log ++ str := by
  cases p <;> simp [print_string]

theorem print_stringstream_out_log (L : Logger) (str : String) (p : Bool) :
    (print_stringstream L str p).out_log = L.out_log ++ str := by
  cases p <;> simp [print_stringstream]

theorem run_out_log (L : Logger) (c : WriteCall) :
    (c.run L).out_log = L.out_log ++ c.fragment := by
  cases c <;> simp [WriteCall.run, WriteCall.fragment, print_string_out_log,
    print_stringstream_out_log]

theorem run_cout_of_toTerminal (L : Logger) (c : WriteCall) (h : c.toTerminal = true) :
    (c.run L).cout = L.cout ++ c.fragment := by
  cases c <;> simp_all [WriteCall.run, WriteCall.fragment, WriteCall.toTerminal,
    print_string, print_stringstream]

theorem runCalls_out_log (calls : List WriteCall) :
    ∀ L : Logger, (runCalls L calls).out_log
      = L.out_log ++ concatAll (calls.map WriteCall.fragment) := by
  induction calls with
  | nil => intro L; simp [runCalls, concatAll]
  | cons c cs ih =>
    intro L
    have h := ih (c.run L)
    simp only [runCalls, List.foldl_cons, List.map_cons, concatAll] at h ⊢
    rw [h, run_out_log, String.append_assoc]

theorem runCalls_cout (calls : List WriteCall) :
    ∀ L : Logger, (∀ c ∈ calls, c.toTerminal = true) →
      (runCalls L calls).cout = L.cout ++ concatAll (calls.map WriteCall.fragment) := by
  induction calls with
  | nil => intro L _; simp [runCalls, concatAll]
  | cons c cs ih =>
    intro L hall
    have h := ih (c.run L) (fun d hd => hall d (List.mem_cons_of_mem _ hd))
    simp only [runCalls, List.foldl_cons, List.map_cons, concatAll] at h ⊢
    rw [h, run_cout_of_toTerminal L c (hall c (List.mem_cons_self _ _)), String.append_assoc]

/-! ### `print_catch_words` -/

/-- The first loop succeeds on the first `n` topics and yields, in order of
topic id, each topic paired with its member count converted to `int`. -/
theorem cluster_sizes_loop (closest_docs : List (List Nat)) (n : Nat)
    (hn : n ≤ closest_docs.length) :
    ∃ keys : List (Int × Nat),
      forLoop (cluster_sizes_step closest_docs) n [] = some keys ∧
      keys.map Prod.snd = List.range n ∧
      ∀ p ∈ keys, ∃ docs, closest_docs[p.2]? = some docs ∧ p.1 = toInt docs.length := by
  induction n with
  | zero => exact ⟨[], rfl, rfl, by simp⟩
  | succ n ih =>
    obtain ⟨keys, hloop, hsnd, hkey⟩ := ih (Nat.le_of_succ_le hn)
    have hd : closest_docs[n]? = some closest_docs[n] := List.getElem?_eq_getElem hn
    refine ⟨keys ++ [(toInt closest_docs[n].length, n)], ?_, ?_, ?_⟩
    · simp [forLoop_succ, hloop, cluster_sizes_step, hd]
    · simp [hsnd, List.range_succ]
    · intro p hp
      rcases List.mem_append.mp hp with h | h
      · exact hkey p h
      · have hp' : p = (toInt closest_docs[n].length, n) := by simpa using h
        subst hp'
        exact ⟨_, hd, rfl⟩

/-- The second loop, run for `n` iterations over any `cluster_sizes` table:
it appends one line per iteration, and iteration `i` displays the id and size
found at position `i` of the table, the catchword count of that id, and the
entries at position `i` of `distsq`, `nl_coherences` and `coherences`. -/
theorem cluster_body_loop {F : Type} (showF : F → String) (distsq : List F)
    (catchwords : List (List Nat)) (coherences nl_coherences : List F)
    (cluster_sizes : List (Int × Nat))
    (hcw : ∀ p ∈ cluster_sizes, p.2 < catchwords.length) (ostr : String) (catchless : Int)
    (n : Nat) (h1 : n ≤ cluster_sizes.length) (h2 : n ≤ distsq.length)
    (h3 : n ≤ nl_coherences.length) (h4 : n ≤ coherences.length) :
    ∃ recs : List (ClusterLine F),
      forLoop (cluster_body showF distsq catchwords coherences nl_coherences cluster_sizes) n
          (ostr, catchless)
        = some (ostr ++ concatAll (recs.map (cluster_line showF)),
            catchless + (recs.countP (fun r => decide (r.ncatch = 0)) : Nat)) ∧
      recs.map (fun r => (r.size, r.id)) = cluster_sizes.take n ∧
      recs.map (fun r => r.distsq) = distsq.take n ∧
      recs.map (fun r => r.raw_coh) = nl_coherences.take n ∧
      recs.map (fun r => r.flt_coh) = coherences.take n ∧
      ∀ r ∈ recs, ∃ cw, catchwords[r.id]? = some cw ∧ r.ncatch = cw.length := by
  induction n with
  | zero => exact ⟨[], by simp [forLoop, concatAll], by simp, by simp, by simp, by simp, by simp⟩
  | succ n ih =>
    obtain ⟨recs, hloop, hkeys, hd, hnl, hc, hcat⟩ :=
      ih (Nat.le_of_succ_le h1) (Nat.le_of_succ_le h2) (Nat.le_of_succ_le h3)
        (Nat.le_of_succ_le h4)
    have e1 : cluster_sizes[n]? = some cluster_sizes[n] := List.getElem?_eq_getElem h1
    have e2 : distsq[n]? = some distsq[n] := List.getElem?_eq_getElem h2
    have e3 : nl_coherences[n]? = some nl_coherences[n] := List.getElem?_eq_getElem h3
    have e4 : coherences[n]? = some coherences[n] := List.getElem?_eq_getElem h4
    have hlt : cluster_sizes[n].2 < catchwords.length :=
      hcw _ (List.getElem_mem h1)
    have e5 : catchwords[cluster_sizes[n].2]? = some catchwords[cluster_sizes[n].2] :=
      List.getElem?_eq_getElem hlt
    refine ⟨recs ++ [ClusterLine.mk cluster_sizes[n].2 cluster_sizes[n].1 distsq[n]
        nl_coherences[n] coherences[n] catchwords[cluster_sizes[n].2].length],
      ?_, ?_, ?_, ?_, ?_, ?_⟩
    · simp only [forLoop_succ, hloop, Option.some_bind, cluster_body, e1, e2, e3, e4, e5,
        List.map_append, List.map_cons, List.map_nil, concatAll_append, concatAll_singleton,
        List.countP_append, List.countP_cons, List.countP_nil]
      by_cases hz : catchwords[cluster_sizes[n].2].length = 0
      · simp [hz, String.append_assoc, Int.add_assoc]
      · simp [hz, String.append_assoc]
    · rw [List.map_append, hkeys, List.take_succ, e1]; rfl
    · rw [List.map_append, hd, List.take_succ, e2]; rfl
    · rw [List.map_append, hnl, List.take_succ, e3]; rfl
    · rw [List.map_append, hc, List.take_succ, e4]; rfl
    · intro r hr
      rcases List.mem_append.mp hr with h | h
      · exact hcat r h
      · have hr' := List.mem_singleton.mp h
        subst hr'
        exact ⟨_, e5, rfl⟩

theorem showInt_natCast (k : Nat) : showInt (k : Int) = showNat k := rfl

/-- What `print_cluster_details` renders when the five arrays have
`num_topics` entries: `keys` is the table `cluster_sizes` before the sort and
`recs` are the values of the body lines, top to bottom. -/
theorem cluster_report {F : Type} (S : StdSort (Int × Nat) cluster_comp)
    (showF : F → String) (N : Nat) (distsq : List F) (catchwords closest_docs : List (List Nat))
    (coherences nl_coherences : List F)
    (hd : distsq.length = N) (hcw : catchwords.length = N) (hcd : closest_docs.length = N)
    (hc : coherences.length = N) (hnl : nl_coherences.length = N) :
    ∃ (keys : List (Int × Nat)) (recs : List (ClusterLine F)),
      keys.map Prod.snd = List.range N ∧
      (∀ p ∈ keys, ∃ docs, closest_docs[p.2]? = some docs ∧ p.1 = toInt docs.length) ∧
      print_cluster_details_ostr S showF N distsq catchwords closest_docs coherences
          nl_coherences
        = some (concatAll (recs.map (cluster_line showF)) ++ "\n#Topics with no catchwords: "
            ++ showNat (recs.countP (fun r => decide (r.ncatch = 0)))
            ++ "(" ++ showNat N ++ ")" ++ "\n") ∧
      recs.map (fun r => (r.size, r.id)) = S.sort keys ∧
      recs.map (fun r => r.distsq) = distsq ∧
      recs.map (fun r => r.raw_coh) = nl_coherences ∧
      recs.map (fun r => r.flt_coh) = coherences ∧
      ∀ r ∈ recs, ∃ cw, catchwords[r.id]? = some cw ∧ r.ncatch = cw.length := by
  obtain ⟨keys, hkloop, hsnd, hkey⟩ := cluster_sizes_loop closest_docs N (by omega)
  have hlen : (S.sort keys).length = N := by
    rw [(S.perm keys).length_eq, ← List.length_map keys Prod.snd, hsnd, List.length_range]
  have hmem : ∀ p ∈ S.sort keys, p.2 < catchwords.length := by
    intro p hp
    have h1 : p.2 ∈ keys.map Prod.snd :=
      List.mem_map_of_mem Prod.snd ((S.perm keys).mem_iff.mp hp)
    rw [hsnd, List.mem_range] at h1
    omega
  obtain ⟨recs, hloop, hkeys, hdist, hraw, hflt, hcat⟩ :=
    cluster_body_loop showF distsq catchwords coherences nl_coherences (S.sort keys) hmem
      "" 0 N (by omega) (by omega) (by omega) (by omega)
  refine ⟨keys, recs, hsnd, hkey, ?_, ?_, ?_, ?_, ?_, hcat⟩
  · simp only [print_cluster_details_ostr, hkloop, Option.some_bind, hloop, Option.map_some',
      String.empty_append, Int.zero_add, showInt_natCast]
  · rw [hkeys, List.take_of_length_le (by omega)]
  · rw [hdist, List.take_of_length_le (by omega)]
  · rw [hraw, List.take_of_length_le (by omega)]
  · rw [hflt, List.take_of_length_le (by omega)]

/-- On two entries with different keys every routine that meets the
`std::sort` guarantee gives the same result. -/
theorem sort_pair_of_lt (S : StdSort (Int × Nat) cluster_comp) (a b : Int × Nat)
    (h : a.1 < b.1) : S.sort [a, b] = [a, b] ∧ S.sort [b, a] = [a, b] := by
  have key : ∀ l : List (Int × Nat), List.Perm l [a, b] →
      List.Pairwise (fun x y => cluster_comp y x = false) l → l = [a, b] := by
    intro l hp hs
    obtain ⟨x, y, rfl⟩ := List.length_eq_two.mp hp.length_eq
    have ha : a ∈ [x, y] := hp.mem_iff.mpr (by simp)
    have hb : b ∈ [x, y] := hp.mem_iff.mpr (by simp)
    have hxy : ¬ (y.1 < x.1) := by
      simpa [cluster_comp] using hs
    simp only [List.mem_cons, List.mem_singleton, List.not_mem_nil, or_false] at ha hb
    rcases ha with rfl | rfl <;> rcases hb with rfl | rfl
    · omega
    · rfl
    · omega
    · omega
  refine ⟨key _ (S.perm _) (S.sorted _), key _ ((S.perm _).trans (List.Perm.swap _ _ _)) (S.sorted _)⟩

/-- The ids of the body lines are a rearrangement of `0, ..., N-1`. -/
theorem ids_perm_range {F : Type} (S : StdSort (Int × Nat) cluster_comp)
    (keys : List (Int × Nat)) (recs : List (ClusterLine F)) (N : Nat)
    (hsnd : keys.map Prod.snd = List.range N)
    (hk : recs.map (fun r => (r.size, r.id)) = S.sort keys) :
    List.Perm (recs.map (fun r => r.id)) (List.range N) := by
  have h1 : recs.map (fun r => r.id) = (S.sort keys).map Prod.snd := by
    rw [← hk, List.map_map]; rfl
  rw [h1, ← hsnd]
  exact (S.perm keys).map Prod.snd

/-- The sizes of the body lines never decrease from one line to the next. -/
theorem sizes_sorted {F : Type} (S : StdSort (Int × Nat) cluster_comp)
    (keys : List (Int × Nat)) (recs : List (ClusterLine F))
    (hk : recs.map (fun r => (r.size, r.id)) = S.sort keys) :
    List.Pairwise (fun a b : Int => a ≤ b) (recs.map (fun r => r.size)) := by
  have h1 : recs.map (fun r => r.size) = (S.sort keys).map Prod.fst := by
    rw [← hk, List.map_map]; rfl
  rw [h1, List.pairwise_map]
  refine (S.sorted keys).imp ?_
  intro a b h
  simpa [cluster_comp] using h

/-- The number of body lines that display no catchword is the number of topics
whose catchword list is empty. -/
theorem catchless_count {F : Type} (catchwords : List (List Nat))
    (recs : List (ClusterLine F)) (N : Nat)
    (hperm : List.Perm (recs.map (fun r => r.id)) (List.range N))
    (hcat : ∀ r ∈ recs, ∃ cw, catchwords[r.id]? = some cw ∧ r.ncatch = cw.length) :
    recs.countP (fun r => decide (r.ncatch = 0))
      = (List.range N).countP (fun t => decide (catchwords[t]? = some [])) := by
  rw [← hperm.countP_eq, List.countP_map]
  apply List.countP_congr
  intro r hr
  obtain ⟨cw, h1, h2⟩ := hcat r hr
  simp [h1, h2, List.length_eq_zero]

/-- The example of the specification under any routine that meets the
`std::sort` guarantee: two topics with 3 and 7 closest documents and 0 and 2
catchwords. -/
theorem cluster_example_any_sort (S : StdSort (Int × Nat) cluster_comp) :
    print_cluster_details_ostr S showNat 2 [10, 20] [[], [4, 5]]
        [[1, 2, 3], [1, 2, 3, 4, 5, 6, 7]] [1, 2] [3, 4]
      = some ("Cluster     0  size:     3  distsq_sum:  10  raw_coh:     3"
          ++ "  flt_coh:     1  #catchwords: 0\n"
          ++ "Cluster     1  size:     7  distsq_sum:  20  raw_coh:     4"
          ++ "  flt_coh:     2  #catchwords: 2\n"
          ++ "\n#Topics with no catchwords: 1(2)\n") := by
  simp only [print_cluster_details_ostr, forLoop, cluster_sizes_step, List.getElem?_cons_zero,
    Option.some_bind, List.nil_append, List.getElem?_cons_succ, List.length_cons,
    List.length_nil, List.cons_append]
  rw [(sort_pair_of_lt S (toInt 3, 0) (toInt 7, 1) (by decide)).1]
  decide

/-! ### Counting line ends -/

theorem newlines_append (a b : String) : newlines (a ++ b) = newlines a + newlines b := by
  simp [newlines, String.data_append, List.count_append]

theorem digitChar_ne_newline (d : Nat) : Nat.digitChar d ≠ '\n' := by
  by_cases h : d < 16
  · interval_cases d <;> decide
  · have h16 : Nat.digitChar d = '*' := by
      unfold Nat.digitChar
      repeat (rw [if_neg (by omega)])
    rw [h16]; decide

theorem toDigitsCore_no_newline (fuel : Nat) :
    ∀ (n : Nat) (ds : List Char), (∀ c ∈ ds, c ≠ '\n') →
      ∀ c ∈ Nat.toDigitsCore 10 fuel n ds, c ≠ '\n' := by
  induction fuel with
  | zero => intro n ds hds c hc; exact hds c (by simpa [Nat.toDigitsCore] using hc)
  | succ fuel ih =>
    intro n ds hds c hc
    have hcons : ∀ x ∈ Nat.digitChar (n % 10) :: ds, x ≠ '\n' := by
      intro x hx
      rcases List.mem_cons.mp hx with h | h
      · rw [h]; exact digitChar_ne_newline _
      · exact hds x h
    simp only [Nat.toDigitsCore] at hc
    split_ifs at hc
    · exact hcons c hc
    · exact ih _ _ hcons c hc

theorem newlines_showNat (n : Nat) : newlines (showNat n) = 0 := by
  simp only [newlines, showNat, Nat.repr, List.asString, List.count_eq_zero]
  intro h
  exact toDigitsCore_no_newline _ n [] (by simp) _ h rfl

theorem newlines_showInt (i : Int) : newlines (showInt i) = 0 := by
  cases i with
  | ofNat n => exact newlines_showNat n
  | negSucc n =>
    simp only [showInt, newlines_append, newlines_showNat]
    decide

theorem newlines_setw_left (w : Nat) (s : String) :
    newlines (setw_left w s) = newlines s := by
  simp only [setw_left, newlines_append, Nat.add_right_eq_self]
  simp only [newlines, List.count_eq_zero]
  intro h
  have := List.eq_of_mem_replicate h
  exact absurd this (by decide)

/-- A body line ends in its only newline, as long as the text of a value of
`FPTYPE` has none. -/
theorem newlines_cluster_line {F : Type} (showF : F → String)
    (hshow : ∀ x, newlines (showF x) = 0) (r : ClusterLine F) :
    newlines (cluster_line showF r) = 1 := by
  simp only [cluster_line, newlines_append, newlines_setw_left, newlines_showNat,
    newlines_showInt, hshow]
  decide

theorem newlines_concatAll_lines {F : Type} (showF : F → String)
    (hshow : ∀ x, newlines (showF x) = 0) (recs : List (ClusterLine F)) :
    newlines (concatAll (recs.map (cluster_line showF))) = recs.length := by
  induction recs with
  | nil => simp [concatAll]; decide
  | cons r rest ih =>
    simp only [List.map_cons, concatAll, newlines_append, ih, newlines_cluster_line showF hshow,
      List.length_cons]
    omega

/-- C1 (as stated, refuted): one topic whose list of closest documents has
2147483648 entries.  The member count is stored in the `int` half of
`std::pair<int, doc_id_t>`, so the single body line, which displays id 0,
shows the size -2147483648 and not the member count 2147483648. -/
theorem cluster_size_wraps_past_int_max :
    print_cluster_details_ostr stable_sorter showNat 1 [0] [[]]
        [List.replicate 2147483648 0] [0] [0]
      = some ("Cluster     0  size:     -2147483648  distsq_sum:  0  raw_coh:     0"
          ++ "  flt_coh:     0  #catchwords: 0\n\n#Topics with no catchwords: 1(1)\n")
    ∧ (List.replicate 2147483648 0).length = 2147483648 := by
  refine ⟨?_, List.length_replicate _ _⟩
  simp only [print_cluster_details_ostr, forLoop, cluster_sizes_step, List.getElem?_cons_zero,
    Option.some_bind, List.length_replicate, List.nil_append]
  decide

/-- C1 (amended): when the five arrays have `N` entries, the body lines
display each topic id `0..N-1` exactly once, each line shows as its size the
member count of the id it displays converted to `int` (the member count
itself whenever that is below 2^31), and the sizes never decrease from the
first body line to the last. -/
theorem cluster_lines_ids_sizes_sorted {F : Type} (S : StdSort (Int × Nat) cluster_comp)
    (showF : F → String) (N : Nat) (distsq : List F) (catchwords closest_docs : List (List Nat))
    (coherences nl_coherences : List F)
    (hd : distsq.length = N) (hcw : catchwords.length = N) (hcd : closest_docs.length = N)
    (hc : coherences.length = N) (hnl : nl_coherences.length = N) :
    ∃ (recs : List (ClusterLine F)) (catchless : Nat),
      print_cluster_details_ostr S showF N distsq catchwords closest_docs coherences
          nl_coherences
        = some (concatAll (recs.map (cluster_line showF)) ++ "\n#Topics with no catchwords: "
            ++ showNat catchless ++ "(" ++ showNat N ++ ")" ++ "\n") ∧
      List.Perm (recs.map (fun r => r.id)) (List.range N) ∧
      (∀ r ∈ recs, ∃ docs, closest_docs[r.id]? = some docs ∧ r.size = toInt docs.length ∧
        (docs.length < 2147483648 → r.size = (docs.length : Int))) ∧
      List.Pairwise (fun a b : Int => a ≤ b) (recs.map (fun r => r.size)) := by
  obtain ⟨keys, recs, hsnd, hkey, htext, hk, -, -, -, -⟩ :=
    cluster_report S showF N distsq catchwords closest_docs coherences nl_coherences
      hd hcw hcd hc hnl
  refine ⟨recs, _, htext, ids_perm_range S keys recs N hsnd hk, ?_, sizes_sorted S keys recs hk⟩
  intro r hr
  have hmem : (r.size, r.id) ∈ S.sort keys := by
    rw [← hk]; exact List.mem_map_of_mem (fun r => (r.size, r.id)) hr
  obtain ⟨docs, h1, h2⟩ := hkey _ ((S.perm keys).mem_iff.mp hmem)
  refine ⟨docs, h1, h2, ?_⟩
  intro hlt
  have h3 : r.size = toInt docs.length := h2
  rw [h3]
  unfold toInt
  rw [Nat.mod_eq_of_lt (by omega), if_pos hlt]

/-- Instance of `cluster_lines_ids_sizes_sorted`: two topics with 3 and 7
closest documents. -/
theorem cluster_lines_ids_sizes_sorted_witness :
    ∃ (recs : List (ClusterLine Nat)) (catchless : Nat),
      print_cluster_details_ostr stable_sorter showNat 2 [10, 20] [[], [4, 5]]
          [[1, 2, 3], [1, 2, 3, 4, 5, 6, 7]] [1, 2] [3, 4]
        = some (concatAll (recs.map (cluster_line showNat)) ++ "\n#Topics with no catchwords: "
            ++ showNat catchless ++ "(" ++ showNat 2 ++ ")" ++ "\n") ∧
      List.Perm (recs.map (fun r => r.id)) (List.range 2) ∧
      (∀ r ∈ recs, ∃ docs, [[1, 2, 3], [1, 2, 3, 4, 5, 6, 7]][r.id]? = some docs ∧
        r.size = toInt docs.length ∧ (docs.length < 2147483648 → r.size = (docs.length : Int))) ∧
      List.Pairwise (fun a b : Int => a ≤ b) (recs.map (fun r => r.size)) :=
  cluster_lines_ids_sizes_sorted stable_sorter showNat 2 [10, 20] [[], [4, 5]]
    [[1, 2, 3], [1, 2, 3, 4, 5, 6, 7]] [1, 2] [3, 4] rfl rfl rfl rfl rfl

/-- C2 (the code at the failing input): topic 0 has 7 closest documents,
`distsq[0] = 10`, `nl_coherences[0] = 3`, `coherences[0] = 1`; topic 1 has 3
closest documents, `distsq[1] = 20`, `nl_coherences[1] = 4`,
`coherences[1] = 2`.  Whatever `std::sort` does with equal keys, the first
body line displays topic 1 with the distance and the coherences of topic 0,
and the second displays topic 0 with those of topic 1: the three values are
read at the line position `i`, not at the displayed id `t`. -/
theorem cluster_line_values_read_by_position (S : StdSort (Int × Nat) cluster_comp) :
    print_cluster_details_ostr S showNat 2 [10, 20] [[], [4, 5]]
        [[1, 2, 3, 4, 5, 6, 7], [1, 2, 3]] [1, 2] [3, 4]
      = some ("Cluster     1  size:     3  distsq_sum:  10  raw_coh:     3"
          ++ "  flt_coh:     1  #catchwords: 2\n"
          ++ "Cluster     0  size:     7  distsq_sum:  20  raw_coh:     4"
          ++ "  flt_coh:     2  #catchwords: 0\n"
          ++ "\n#Topics with no catchwords: 1(2)\n") := by
  simp only [print_cluster_details_ostr, forLoop, cluster_sizes_step, List.getElem?_cons_zero,
    Option.some_bind, List.nil_append, List.getElem?_cons_succ, List.length_cons,
    List.length_nil, List.cons_append]
  rw [(sort_pair_of_lt S (toInt 3, 1) (toInt 7, 0) (by decide)).2]
  decide

/-- C3: when the five arrays have `N` entries, the rendered text ends, after
the `N` body lines and a newline, with the line
`#Topics with no catchwords: <c>(<N>)`, where `c` is the number of topics `t`
in `0..N-1` whose catchword list is empty. -/
theorem cluster_trailing_line_counts_catchless {F : Type}
    (S : StdSort (Int × Nat) cluster_comp)
    (showF : F → String) (N : Nat) (distsq : List F) (catchwords closest_docs : List (List Nat))
    (coherences nl_coherences : List F)
    (hd : distsq.length = N) (hcw : catchwords.length = N) (hcd : closest_docs.length = N)
    (hc : coherences.length = N) (hnl : nl_coherences.length = N) :
    ∃ recs : List (ClusterLine F),
      recs.length = N ∧
      print_cluster_details_ostr S showF N distsq catchwords closest_docs coherences
          nl_coherences
        = some (concatAll (recs.map (cluster_line showF)) ++ "\n"
            ++ ("#Topics with no catchwords: "
              ++ showNat ((List.range N).countP (fun t => decide (catchwords[t]? = some [])))
              ++ "(" ++ showNat N ++ ")")
            ++ "\n") := by
  obtain ⟨keys, recs, hsnd, -, htext, hk, -, -, -, hcat⟩ :=
    cluster_report S showF N distsq catchwords closest_docs coherences nl_coherences
      hd hcw hcd hc hnl
  have hperm := ids_perm_range S keys recs N hsnd hk
  refine ⟨recs, ?_, ?_⟩
  · simpa using hperm.length_eq
  · rw [htext, catchless_count catchwords recs N hperm hcat]
    have hsplit : ("\n#Topics with no catchwords: " : String)
        = "\n" ++ "#Topics with no catchwords: " := by decide
    rw [hsplit]
    simp only [String.append_assoc]

/-- Instance of `cluster_trailing_line_counts_catchless` at the example of the
specification: two topics with sizes 3 and 7 and 0 and 2 catchwords.  The
body lines are those of topic 0 and then topic 1, and the trailing line is
`#Topics with no catchwords: 1(2)`. -/
theorem cluster_trailing_line_counts_catchless_witness :
    (∃ recs : List (ClusterLine Nat),
      recs.length = 2 ∧
      print_cluster_details_ostr stable_sorter showNat 2 [10, 20] [[], [4, 5]]
          [[1, 2, 3], [1, 2, 3, 4, 5, 6, 7]] [1, 2] [3, 4]
        = some (concatAll (recs.map (cluster_line showNat)) ++ "\n"
            ++ ("#Topics with no catchwords: "
              ++ showNat ((List.range 2).countP
                  (fun t => decide ([[], [4, 5]][t]? = some ([] : List Nat))))
              ++ "(" ++ showNat 2 ++ ")")
            ++ "\n"))
    ∧ print_cluster_details_ostr stable_sorter showNat 2 [10, 20] [[], [4, 5]]
          [[1, 2, 3], [1, 2, 3, 4, 5, 6, 7]] [1, 2] [3, 4]
        = some ("Cluster     0  size:     3  distsq_sum:  10  raw_coh:     3"
            ++ "  flt_coh:     1  #catchwords: 0\n"
            ++ "Cluster     1  size:     7  distsq_sum:  20  raw_coh:     4"
            ++ "  flt_coh:     2  #catchwords: 2\n"
            ++ "\n#Topics with no catchwords: 1(2)\n") :=
  ⟨cluster_trailing_line_counts_catchless stable_sorter showNat 2 [10, 20] [[], [4, 5]]
    [[1, 2, 3], [1, 2, 3, 4, 5, 6, 7]] [1, 2] [3, 4] rfl rfl rfl rfl rfl, by decide⟩

/-- C4 (as stated, refuted): with no topic at all the rendered text is not
only the trailing summary line.  It starts with an empty line, written by the
leading newline of `"\n#Topics with no catchwords: "`, and holds two line ends. -/
theorem cluster_zero_topics_has_blank_line :
    print_cluster_details_ostr stable_sorter showNat 0 [] [] [] [] []
      = some "\n#Topics with no catchwords: 0(0)\n"
    ∧ ("\n#Topics with no catchwords: 0(0)\n" : String) ≠ "#Topics with no catchwords: 0(0)\n"
    ∧ newlines "\n#Topics with no catchwords: 0(0)\n" = 2 := by
  refine ⟨by decide, by decide, by decide⟩

/-- C4 (amended): when the five arrays have `N` entries and the text of a
value of `FPTYPE` has no newline, the rendered text is `N` body lines, each
ended by its only newline, then one empty line, then the trailing summary
line, and nothing else: `N + 2` line ends in total.  For `N = 0` the text is
the empty line followed by `#Topics with no catchwords: 0(0)`. -/
theorem cluster_text_line_structure {F : Type} (S : StdSort (Int × Nat) cluster_comp)
    (showF : F → String) (N : Nat) (distsq : List F) (catchwords closest_docs : List (List Nat))
    (coherences nl_coherences : List F)
    (hd : distsq.length = N) (hcw : catchwords.length = N) (hcd : closest_docs.length = N)
    (hc : coherences.length = N) (hnl : nl_coherences.length = N)
    (hshow : ∀ x, newlines (showF x) = 0) :
    ∃ (recs : List (ClusterLine F)) (catchless : Nat) (text : String),
      print_cluster_details_ostr S showF N distsq catchwords closest_docs coherences
          nl_coherences = some text ∧
      text = concatAll (recs.map (cluster_line showF)) ++ "\n"
            ++ ("#Topics with no catchwords: " ++ showNat catchless ++ "(" ++ showNat N ++ ")")
            ++ "\n" ∧
      recs.length = N ∧
      (∀ r ∈ recs, newlines (cluster_line showF r) = 1) ∧
      newlines ("#Topics with no catchwords: " ++ showNat catchless ++ "(" ++ showNat N ++ ")")
        = 0 ∧
      newlines text = N + 2 ∧
      (N = 0 → text = "\n#Topics with no catchwords: 0(0)\n") := by
  obtain ⟨keys, recs, hsnd, -, htext, hk, -, -, -, -⟩ :=
    cluster_report S showF N distsq catchwords closest_docs coherences nl_coherences
      hd hcw hcd hc hnl
  have hlen : recs.length = N := by
    simpa using (ids_perm_range S keys recs N hsnd hk).length_eq
  have hsplit : ("\n#Topics with no catchwords: " : String)
      = "\n" ++ "#Topics with no catchwords: " := by decide
  have hlit : newlines "#Topics with no catchwords: " = 0 := by decide
  have hopen : newlines "(" = 0 := by decide
  have hclose : newlines ")" = 0 := by decide
  have hnl1 : newlines "\n" = 1 := by decide
  refine ⟨recs, recs.countP (fun r => decide (r.ncatch = 0)), _, htext, ?_, hlen,
    fun r _ => newlines_cluster_line showF hshow r, ?_, ?_, ?_⟩
  · rw [hsplit]; simp only [String.append_assoc]
  · simp only [newlines_append, newlines_showNat, hlit, hopen, hclose]
  · simp only [newlines_append, newlines_showNat, newlines_concatAll_lines showF hshow, hsplit,
      hlit, hopen, hclose, hnl1, hlen]
  · intro h0
    subst h0
    have hnil : recs = [] := List.length_eq_zero.mp hlen
    subst hnil
    simp only [List.map_nil, concatAll, List.countP_nil, String.empty_append]
    decide

/-- Instance of `cluster_text_line_structure`: two topics, values printed in
decimal. -/
theorem cluster_text_line_structure_witness :
    ∃ (recs : List (ClusterLine Nat)) (catchless : Nat) (text : String),
      print_cluster_details_ostr stable_sorter showNat 2 [10, 20] [[], [4, 5]]
          [[1, 2, 3], [1, 2, 3, 4, 5, 6, 7]] [1, 2] [3, 4] = some text ∧
      text = concatAll (recs.map (cluster_line showNat)) ++ "\n"
            ++ ("#Topics with no catchwords: " ++ showNat catchless ++ "(" ++ showNat 2 ++ ")")
            ++ "\n" ∧
      recs.length = 2 ∧
      (∀ r ∈ recs, newlines (cluster_line showNat r) = 1) ∧
      newlines ("#Topics with no catchwords: " ++ showNat catchless ++ "(" ++ showNat 2 ++ ")")
        = 0 ∧
      newlines text = 2 + 2 ∧
      (2 = 0 → text = "\n#Topics with no catchwords: 0(0)\n") :=
  cluster_text_line_structure stable_sorter showNat 2 [10, 20] [[], [4, 5]]
    [[1, 2, 3], [1, 2, 3, 4, 5, 6, 7]] [1, 2] [3, 4] rfl rfl rfl rfl rfl newlines_showNat

/-- The text of a body line, written out with its padded labels. -/
theorem cluster_line_eq {F : Type} (showF : F → String) (r : ClusterLine F) :
    cluster_line showF r
      = "Cluster     " ++ showNat r.id ++ "  size:     " ++ showInt r.size
        ++ "  distsq_sum:  " ++ showF r.distsq ++ "  raw_coh:     " ++ showF r.raw_coh
        ++ "  flt_coh:     " ++ showF r.flt_coh
        ++ "  #catchwords: " ++ showNat r.ncatch ++ "\n" := by
  have h1 : setw_left 12 "Cluster" = "Cluster     " := by decide
  have h2 : setw_left 12 "  size:" = "  size:     " := by decide
  have h3 : setw_left 15 "  distsq_sum:" = "  distsq_sum:  " := by decide
  have h4 : setw_left 15 "  raw_coh:" = "  raw_coh:     " := by decide
  have h5 : setw_left 15 "  flt_coh:" = "  flt_coh:     " := by decide
  simp only [cluster_line, h1, h2, h3, h4, h5]

/-- The text for `N` topics whose entries in the five arrays are all alike:
the body lines follow the order in which the sort leaves the table
`(size, 0), (size, 1), ..., (size, N-1)`. -/
theorem cluster_text_of_equal_topics {F : Type} (S : StdSort (Int × Nat) cluster_comp)
    (showF : F → String) (N : Nat) (d nl c : F) (cw docs : List Nat) :
    print_cluster_details_ostr S showF N (List.replicate N d) (List.replicate N cw)
        (List.replicate N docs) (List.replicate N c) (List.replicate N nl)
      = some (concatAll ((S.sort ((List.range N).map (fun t => (toInt docs.length, t)))).map
            (fun p => cluster_line showF (ClusterLine.mk p.2 p.1 d nl c cw.length)))
          ++ "\n#Topics with no catchwords: " ++ showNat (if cw.length = 0 then N else 0)
          ++ "(" ++ showNat N ++ ")" ++ "\n") := by
  obtain ⟨keys, recs, hsnd, hkey, htext, hk, hdist, hraw, hflt, hcat⟩ :=
    cluster_report S showF N (List.replicate N d) (List.replicate N cw)
      (List.replicate N docs) (List.replicate N c) (List.replicate N nl)
      (List.length_replicate _ _) (List.length_replicate _ _) (List.length_replicate _ _)
      (List.length_replicate _ _) (List.length_replicate _ _)
  have hget : ∀ {α : Type} (a x : α) (i : Nat), (List.replicate N a)[i]? = some x → x = a := by
    intro α a x i h
    exact List.eq_of_mem_replicate (List.mem_iff_getElem?.mpr ⟨i, h⟩)
  have hkeys : keys = (List.range N).map (fun t => (toInt docs.length, t)) := by
    rw [← hsnd, List.map_map]
    conv_lhs => rw [← List.map_id keys]
    apply List.map_congr_left
    intro p hp
    obtain ⟨docs', h1, h2⟩ := hkey p hp
    rw [hget docs docs' p.2 h1] at h2
    simp only [id, Function.comp]
    exact Prod.ext h2 rfl
  have hrec : ∀ r ∈ recs, r = ClusterLine.mk r.id r.size d nl c cw.length := by
    intro r hr
    have h1 : r.distsq = d := by
      have : r.distsq ∈ recs.map (fun r => r.distsq) := List.mem_map_of_mem _ hr
      rw [hdist] at this
      exact List.eq_of_mem_replicate this
    have h2 : r.raw_coh = nl := by
      have : r.raw_coh ∈ recs.map (fun r => r.raw_coh) := List.mem_map_of_mem _ hr
      rw [hraw] at this
      exact List.eq_of_mem_replicate this
    have h3 : r.flt_coh = c := by
      have : r.flt_coh ∈ recs.map (fun r => r.flt_coh) := List.mem_map_of_mem _ hr
      rw [hflt] at this
      exact List.eq_of_mem_replicate this
    have h4 : r.ncatch = cw.length := by
      obtain ⟨cw', h, hn⟩ := hcat r hr
      rw [hn, hget cw cw' r.id h]
    cases r
    simp only at h1 h2 h3 h4
    simp only [h1, h2, h3, h4]
  have hrecs : recs = (S.sort keys).map (fun p => ClusterLine.mk p.2 p.1 d nl c cw.length) := by
    rw [← hk, List.map_map]
    conv_lhs => rw [← List.map_id recs]
    apply List.map_congr_left
    intro r hr
    simpa only [id, Function.comp] using hrec r hr
  have hlen : recs.length = N := by
    simpa using (ids_perm_range S keys recs N hsnd hk).length_eq
  have hcount : recs.countP (fun r => decide (r.ncatch = 0)) = if cw.length = 0 then N else 0 := by
    by_cases h0 : cw.length = 0
    · rw [if_pos h0, ← hlen]
      apply List.countP_eq_length.mpr
      intro r hr
      have := hrec r hr
      rw [this]
      simpa using h0
    · rw [if_neg h0]
      apply List.countP_eq_zero.mpr
      intro r hr
      have := hrec r hr
      rw [this]
      simpa using h0
  rw [htext, hcount]
  rw [hrecs, hkeys, List.map_map]
  rfl

/-- Runs of `libstdcxx_sort`: two equal keys stay in place (up to 16 elements
the routine is an insertion sort), different keys are put in ascending
order, and 17 equal keys are not left in their input order. -/
theorem libstdcxx_sort_runs :
    libstdcxx_sort [(3, 0), (3, 1)] = [(3, 0), (3, 1)]
    ∧ libstdcxx_sort [(7, 0), (3, 1)] = [(3, 1), (7, 0)]
    ∧ libstdcxx_sort [(5, 0), (3, 1), (5, 2), (-1, 3), (3, 4)]
        = [(-1, 3), (3, 1), (3, 4), (5, 0), (5, 2)]
    ∧ (libstdcxx_sort ((List.range 17).map (fun t => ((3 : Int), t)))).map Prod.snd
        = [8, 16, 15, 14, 13, 12, 11, 10, 9, 0, 7, 6, 5, 4, 3, 2, 1] := by
  refine ⟨by decide, by decide, by decide, by decide⟩

/-- C10 (as stated, refuted): twenty topics with three closest documents each
and otherwise equal entries.  `std::sort` of libstdc++ partitions a range of
more than 16 elements around a median that it first swaps to the front, and
it swaps equal keys across the range: the table comes back in the order 10,
19, 18, ..., 11, 0, 9, 8, ..., 1 of the topic ids, and so do the body lines.
The line of topic 10 comes before the line of topic 0 although both have the
same size. -/
theorem cluster_equal_sizes_order_not_kept :
    libstdcxx_sort ((List.range 20).map (fun t => ((3 : Int), t)))
      = [10, 19, 18, 17, 16, 15, 14, 13, 12, 11, 0, 9, 8, 7, 6, 5, 4, 3, 2, 1].map
          (fun t => ((3 : Int), t))
    ∧ libstdcxx_sorter.sort ((List.range 20).map (fun t => ((3 : Int), t)))
      = libstdcxx_sort ((List.range 20).map (fun t => ((3 : Int), t)))
    ∧ print_cluster_details_ostr libstdcxx_sorter showNat 20 (List.replicate 20 0)
        (List.replicate 20 []) (List.replicate 20 [1, 2, 3]) (List.replicate 20 0)
        (List.replicate 20 0)
      = some (concatAll
          ([10, 19, 18, 17, 16, 15, 14, 13, 12, 11, 0, 9, 8, 7, 6, 5, 4, 3, 2, 1].map
            (fun t => "Cluster     " ++ showNat t ++ "  size:     3  distsq_sum:  0"
              ++ "  raw_coh:     0  flt_coh:     0  #catchwords: 0\n"))
          ++ "\n#Topics with no catchwords: 20(20)\n") := by
  have hsort : libstdcxx_sort ((List.range 20).map (fun t => ((3 : Int), t)))
      = [10, 19, 18, 17, 16, 15, 14, 13, 12, 11, 0, 9, 8, 7, 6, 5, 4, 3, 2, 1].map
          (fun t => ((3 : Int), t)) := by decide
  have hchecked : libstdcxx_sorter.sort ((List.range 20).map (fun t => ((3 : Int), t)))
      = libstdcxx_sort ((List.range 20).map (fun t => ((3 : Int), t))) := by decide
  refine ⟨hsort, hchecked, ?_⟩
  have hsize : toInt ([1, 2, 3] : List Nat).length = 3 := by decide
  have hline : ∀ t : Nat, cluster_line showNat (ClusterLine.mk t 3 0 0 0 0)
      = "Cluster     " ++ showNat t ++ "  size:     3  distsq_sum:  0"
          ++ "  raw_coh:     0  flt_coh:     0  #catchwords: 0\n" := by
    intro t
    have htail : ("  size:     " ++ showInt 3 ++ "  distsq_sum:  " ++ showNat 0
        ++ "  raw_coh:     " ++ showNat 0 ++ "  flt_coh:     " ++ showNat 0
        ++ "  #catchwords: " ++ showNat 0 ++ "\n" : String)
        = "  size:     3  distsq_sum:  0" ++ "  raw_coh:     0  flt_coh:     0  #catchwords: 0\n" := by
      decide
    rw [cluster_line_eq]
    simp only [String.append_assoc] at htail ⊢
    rw [htail]
  have htrailer : ∀ X : String,
      X ++ "\n#Topics with no catchwords: " ++ showNat 20 ++ "(" ++ showNat 20 ++ ")" ++ "\n"
        = X ++ "\n#Topics with no catchwords: 20(20)\n" := by
    intro X
    simp only [String.append_assoc]
    exact congrArg (fun T => X ++ T) (by decide)
  have hlist :
      List.map ((fun p : Int × Nat => cluster_line showNat
          (ClusterLine.mk p.2 p.1 0 0 0 ([] : List Nat).length)) ∘ fun t => ((3 : Int), t))
        [10, 19, 18, 17, 16, 15, 14, 13, 12, 11, 0, 9, 8, 7, 6, 5, 4, 3, 2, 1]
      = List.map (fun t => "Cluster     " ++ showNat t ++ "  size:     3  distsq_sum:  0"
          ++ "  raw_coh:     0  flt_coh:     0  #catchwords: 0\n")
        [10, 19, 18, 17, 16, 15, 14, 13, 12, 11, 0, 9, 8, 7, 6, 5, 4, 3, 2, 1] :=
    List.map_congr_left (fun t _ => hline t)
  have hcount : (if ([] : List Nat).length = 0 then 20 else 0) = 20 := by decide
  rw [cluster_text_of_equal_topics, hsize, hchecked, hsort, List.map_map, hlist, hcount,
    htrailer]

/-- C10 (amended): when the five arrays have `N` entries, the body lines are
ordered by member count as stored in `int`: for every two topics `s` and `t`
such that the stored count of `s` is smaller than that of `t`, the line of `s`
comes before the line of `t`.  Nothing is said of topics with equal counts. -/
theorem cluster_smaller_size_first {F : Type} (S : StdSort (Int × Nat) cluster_comp)
    (showF : F → String) (N : Nat) (distsq : List F) (catchwords closest_docs : List (List Nat))
    (coherences nl_coherences : List F)
    (hd : distsq.length = N) (hcw : catchwords.length = N) (hcd : closest_docs.length = N)
    (hc : coherences.length = N) (hnl : nl_coherences.length = N)
    (s t : Nat) (ds dt : List Nat)
    (hs : closest_docs[s]? = some ds) (ht : closest_docs[t]? = some dt)
    (hlt : toInt ds.length < toInt dt.length) :
    ∃ (recs : List (ClusterLine F)) (catchless : Nat) (i j : Nat) (rs rt : ClusterLine F),
      print_cluster_details_ostr S showF N distsq catchwords closest_docs coherences
          nl_coherences
        = some (concatAll (recs.map (cluster_line showF)) ++ "\n#Topics with no catchwords: "
            ++ showNat catchless ++ "(" ++ showNat N ++ ")" ++ "\n") ∧
      recs[i]? = some rs ∧ rs.id = s ∧ recs[j]? = some rt ∧ rt.id = t ∧ i < j := by
  obtain ⟨keys, recs, hsnd, hkey, htext, hk, -, -, -, -⟩ :=
    cluster_report S showF N distsq catchwords closest_docs coherences nl_coherences
      hd hcw hcd hc hnl
  -- every topic below `N` has a line, and that line carries its stored count
  have hline : ∀ (u : Nat) (du : List Nat), closest_docs[u]? = some du →
      ∃ (i : Nat) (r : ClusterLine F), recs[i]? = some r ∧ r.id = u ∧
        r.size = toInt du.length := by
    intro u du hu
    have huN : u < N := by
      have := (List.getElem?_eq_some.mp hu).1
      omega
    have hmem : u ∈ keys.map Prod.snd := by rw [hsnd]; exact List.mem_range.mpr huN
    obtain ⟨p, hp, hpu⟩ := List.mem_map.mp hmem
    obtain ⟨docs, h1, h2⟩ := hkey p hp
    have hdocs : docs = du := by
      rw [hpu, hu] at h1; exact (Option.some.inj h1).symm
    have hp' : p ∈ recs.map (fun r => (r.size, r.id)) := by
      rw [hk]; exact (S.perm keys).mem_iff.mpr hp
    obtain ⟨r, hr, hrp⟩ := List.mem_map.mp hp'
    obtain ⟨i, hi⟩ := List.mem_iff_getElem?.mp hr
    refine ⟨i, r, hi, ?_, ?_⟩
    · have : (r.size, r.id).2 = p.2 := by rw [hrp]
      exact this.trans hpu
    · have : (r.size, r.id).1 = p.1 := by rw [hrp]
      rw [← hdocs]; exact this.trans h2
  obtain ⟨i, rs, hi, hids, hsz⟩ := hline s ds hs
  obtain ⟨j, rt, hj, hidt, htz⟩ := hline t dt ht
  refine ⟨recs, _, i, j, rs, rt, htext, hi, hids, hj, hidt, ?_⟩
  have hsorted := sizes_sorted S keys recs hk
  rw [List.pairwise_map, List.pairwise_iff_getElem] at hsorted
  obtain ⟨hi', hie⟩ := List.getElem?_eq_some.mp hi
  obtain ⟨hj', hje⟩ := List.getElem?_eq_some.mp hj
  by_contra hij
  rcases Nat.lt_or_eq_of_le (Nat.le_of_not_lt hij) with h | h
  · have := hsorted j i hj' hi' h
    rw [hie, hje, hsz, htz] at this
    omega
  · subst h
    have hEq : rs = rt := by rw [← hie, ← hje]
    rw [hEq, htz] at hsz
    omega

/-- Instance of `cluster_smaller_size_first`: topic 1 with 3 closest documents
comes before topic 0 with 7. -/
theorem cluster_smaller_size_first_witness :
    ∃ (recs : List (ClusterLine Nat)) (catchless : Nat) (i j : Nat) (rs rt : ClusterLine Nat),
      print_cluster_details_ostr stable_sorter showNat 2 [10, 20] [[], [4, 5]]
          [[1, 2, 3, 4, 5, 6, 7], [1, 2, 3]] [1, 2] [3, 4]
        = some (concatAll (recs.map (cluster_line showNat)) ++ "\n#Topics with no catchwords: "
            ++ showNat catchless ++ "(" ++ showNat 2 ++ ")" ++ "\n") ∧
      recs[i]? = some rs ∧ rs.id = 1 ∧ recs[j]? = some rt ∧ rt.id = 0 ∧ i < j :=
  cluster_smaller_size_first stable_sorter showNat 2 [10, 20] [[], [4, 5]]
    [[1, 2, 3, 4, 5, 6, 7], [1, 2, 3]] [1, 2] [3, 4] rfl rfl rfl rfl rfl
    1 0 [1, 2, 3] [1, 2, 3, 4, 5, 6, 7] rfl rfl (by decide)

/-! ### `print_eigen_data` -/

/-- The first loop of `print_eigen_data` appends one entry per index. -/
theorem eigvals_loop {F : Type} (showF : F → String) (sqrt : F → F) (evalues : List F)
    (ostr : String) (n : Nat) (hn : n ≤ evalues.length) :
    ∃ entries : List String,
      forLoop (eigvals_step showF sqrt evalues) n ostr = some (ostr ++ concatAll entries) ∧
      entries.length = n ∧
      ∀ t, t < n → ∃ e, evalues[t]? = some e ∧
        entries[t]? = some ("(" ++ showNat t ++ "): " ++ showF (sqrt e) ++ "\t") := by
  induction n with
  | zero => exact ⟨[], by simp [forLoop, concatAll], rfl, by simp⟩
  | succ n ih =>
    obtain ⟨entries, hloop, hlen, hent⟩ := ih (Nat.le_of_succ_le hn)
    have he : evalues[n]? = some evalues[n] := List.getElem?_eq_getElem hn
    refine ⟨entries ++ ["(" ++ showNat n ++ "): " ++ showF (sqrt evalues[n]) ++ "\t"],
      ?_, by simp [hlen], ?_⟩
    · simp only [forLoop_succ, hloop, Option.some_bind, eigvals_step, he, concatAll_append,
        concatAll_singleton]
      simp only [String.append_assoc]
    · intro t ht
      rcases Nat.lt_or_eq_of_le (Nat.le_of_lt_succ ht) with h | h
      · obtain ⟨e, h1, h2⟩ := hent t h
        exact ⟨e, h1, by rw [List.getElem?_append_left (by omega)]; exact h2⟩
      · subst h
        refine ⟨_, he, ?_⟩
        rw [List.getElem?_append_right (by omega), hlen]
        simp

/-- The second loop of `print_eigen_data` succeeds and keeps the length of
the slab table, as long as every index `t / 100` it writes is in the table. -/
theorem slab_sum_loop {F : Type} [Add F] (evalues : List F) (init : List F) (n : Nat)
    (hn : n ≤ evalues.length) (hidx : ∀ t, t < n → t / 100 < init.length) :
    ∃ slabs : List F,
      forLoop (slab_sum_step evalues) n init = some slabs ∧ slabs.length = init.length := by
  induction n with
  | zero => exact ⟨init, rfl, rfl⟩
  | succ n ih =>
    obtain ⟨slabs, hloop, hlen⟩ :=
      ih (Nat.le_of_succ_le hn) (fun t ht => hidx t (Nat.lt_succ_of_lt ht))
    have he : evalues[n]? = some evalues[n] := List.getElem?_eq_getElem hn
    have hlt : n / 100 < slabs.length := by rw [hlen]; exact hidx n (Nat.lt_succ_self n)
    have hs : slabs[n / 100]? = some slabs[n / 100] := List.getElem?_eq_getElem hlt
    refine ⟨slabs.set (n / 100) (slabs[n / 100] + evalues[n]), ?_, by simp [hlen]⟩
    simp only [forLoop_succ, hloop, Option.some_bind, slab_sum_step, he, hs]

/-- The third loop of `print_eigen_data` appends one line per slab. -/
theorem slab_line_loop {F : Type} [Add F] [Zero F] (showF : F → String)
    (eig_sum_slabs : List F) (ostr : String) (m : Nat) (hm : m ≤ eig_sum_slabs.length) :
    ∃ lines : List String,
      forLoop (slab_line_step showF eig_sum_slabs) m ostr = some (ostr ++ concatAll lines) ∧
      lines.length = m ∧
      ∀ k, k < m →
        lines[k]? = some ("Sum of Top-" ++ showNat ((k + 1) * 100) ++ " eig vals: "
          ++ showF (accumulate 0 (eig_sum_slabs.take (1 + k))) ++ "\n") := by
  induction m with
  | zero => exact ⟨[], by simp [forLoop, concatAll], rfl, by simp⟩
  | succ m ih =>
    obtain ⟨lines, hloop, hlen, hline⟩ := ih (Nat.le_of_succ_le hm)
    have hle : 1 + m ≤ eig_sum_slabs.length := by omega
    refine ⟨lines ++ ["Sum of Top-" ++ showNat ((m + 1) * 100) ++ " eig vals: "
        ++ showF (accumulate 0 (eig_sum_slabs.take (1 + m))) ++ "\n"],
      ?_, by simp [hlen], ?_⟩
    · simp only [forLoop_succ, hloop, Option.some_bind, slab_line_step, if_pos hle,
        concatAll_append, concatAll_singleton]
      simp only [String.append_assoc]
    · intro k hk
      rcases Nat.lt_or_eq_of_le (Nat.le_of_lt_succ hk) with h | h
      · rw [List.getElem?_append_left (by omega)]; exact hline k h
      · subst h
        rw [List.getElem?_append_right (by omega), hlen]
        simp

/-- What `print_eigen_data` renders when `evalues` has at least `n` entries:
the per-index line, then one line per slab; `slabs` is the slab table after
the second loop. -/
theorem eigen_report {F : Type} [Add F] [Zero F] (showF : F → String) (sqrt : F → F)
    (evalues : List F) (n : Nat) (hn : n ≤ evalues.length) :
    ∃ (entries lines : List String) (slabs : List F),
      forLoop (slab_sum_step evalues) n (List.replicate (n / 100 + 1) 0) = some slabs ∧
      print_eigen_data_ostr showF sqrt evalues n
        = some ("Eigvals:  " ++ concatAll entries ++ "\n" ++ concatAll lines) ∧
      entries.length = n ∧
      (∀ t, t < n → ∃ e, evalues[t]? = some e ∧
        entries[t]? = some ("(" ++ showNat t ++ "): " ++ showF (sqrt e) ++ "\t")) ∧
      lines.length = n / 100 ∧
      ∀ k, k < n / 100 →
        lines[k]? = some ("Sum of Top-" ++ showNat ((k + 1) * 100) ++ " eig vals: "
          ++ showF (accumulate 0 (slabs.take (1 + k))) ++ "\n") := by
  obtain ⟨entries, h1, hlen1, hent⟩ :=
    eigvals_loop showF sqrt evalues ("" ++ "Eigvals:  ") n hn
  obtain ⟨slabs, h2, hlen2⟩ :=
    slab_sum_loop evalues (List.replicate (n / 100 + 1) 0) n hn (by
      intro t ht
      rw [List.length_replicate]
      exact Nat.lt_succ_of_le (Nat.div_le_div_right (Nat.le_of_lt ht)))
  rw [List.length_replicate] at hlen2
  obtain ⟨lines, h3, hlen3, hline⟩ :=
    slab_line_loop showF slabs ("" ++ "Eigvals:  " ++ concatAll entries ++ "\n") (n / 100)
      (by omega)
  rw [String.empty_append] at h1 h3
  refine ⟨entries, lines, slabs, h2, ?_, hlen1, hent, hlen3, hline⟩
  simp only [print_eigen_data_ostr, String.empty_append, h1, Option.some_bind, h2, h3]

/-! ### Slab sums over exact arithmetic -/

/-- C8: after any sequence of `print_string` / `print_stringstream` calls,
with any terminal flags, the log holds what it held before followed by the
fragments of the calls in call order, and nothing else; a call with the empty
string leaves the log unchanged. -/
theorem write_calls_append_fragments (L : Logger) (calls : List WriteCall) :
    (runCalls L calls).out_log = L.out_log ++ concatAll (calls.map WriteCall.fragment)
    ∧ ∀ p : Bool, (print_string L "" p).out_log = L.out_log
        ∧ (print_stringstream L "" p).out_log = L.out_log := by
  refine ⟨runCalls_out_log calls L, fun p => ?_⟩
  rw [print_string_out_log, print_stringstream_out_log, String.append_empty]
  exact ⟨rfl, rfl⟩

/-- C9: `print_string` appends the text to the log whatever the flag, appends
the same text to the terminal when the flag is set and leaves the terminal as
it was when the flag is not set; after a sequence of calls that all have the
flag set, the log and the terminal have grown by the same text. -/
theorem write_text_echo (L : Logger) (text : String) (calls : List WriteCall)
    (hall : ∀ c ∈ calls, c.toTerminal = true) :
    (print_string L text true).out_log = L.out_log ++ text
    ∧ (print_string L text true).cout = L.cout ++ text
    ∧ (print_string L text false).out_log = L.out_log ++ text
    ∧ (print_string L text false).cout = L.cout
    ∧ ∃ appended : String,
        appended = concatAll (calls.map WriteCall.fragment) ∧
        (runCalls L calls).out_log = L.out_log ++ appended ∧
        (runCalls L calls).cout = L.cout ++ appended :=
  ⟨rfl, rfl, rfl, rfl, _, rfl, runCalls_out_log calls L, runCalls_cout calls L hall⟩

/-- Instance of `write_text_echo`: a log holding `a`, a terminal holding `b`,
and two calls that both write to the terminal. -/
theorem write_text_echo_witness :
    (print_string ⟨"a", "b"⟩ "x" true).out_log = "a" ++ "x"
    ∧ (print_string ⟨"a", "b"⟩ "x" true).cout = "b" ++ "x"
    ∧ (print_string ⟨"a", "b"⟩ "x" false).out_log = "a" ++ "x"
    ∧ (print_string ⟨"a", "b"⟩ "x" false).cout = "b"
    ∧ ∃ appended : String,
        appended = concatAll
          ([WriteCall.text "p" true, WriteCall.buffer "q" true].map WriteCall.fragment) ∧
        (runCalls ⟨"a", "b"⟩ [WriteCall.text "p" true, WriteCall.buffer "q" true]).out_log
          = "a" ++ appended ∧
        (runCalls ⟨"a", "b"⟩ [WriteCall.text "p" true, WriteCall.buffer "q" true]).cout
          = "b" ++ appended :=
  write_text_echo ⟨"a", "b"⟩ "x" [WriteCall.text "p" true, WriteCall.buffer "q" true]
    (by decide)

/-! ## The constructor: claims -/

/-- C12 (the code at the failing input): a destination that cannot be opened.
`open` sets `failbit` on the default-constructed stream, whose exception mask
is `goodbit`, so nothing is thrown, the handler with `exit(-1)` is not
entered, and the constructor returns a logger whose stream is not open.  The
same holds for every outcome of `open`: the constructor never exits. -/
theorem ctor_returns_when_open_fails :
    Logger_ctor false
      = Construction.returned { is_open := false, failbit := true, throws_on_failbit := false }
    ∧ (∀ status : Int, Logger_ctor false ≠ Construction.exited status)
    ∧ (∀ opens : Bool, ∃ out_log : OfStream,
        Logger_ctor opens = Construction.returned out_log ∧ out_log.is_open = opens) := by
  refine ⟨by decide, ?_, ?_⟩
  · intro status h
    have h1 : Logger_ctor false
        = Construction.returned
            { is_open := false, failbit := true, throws_on_failbit := false } := by decide
    rw [h1] at h
    exact Construction.noConfusion h
  · intro opens
    cases opens
    · exact ⟨{ is_open := false, failbit := true, throws_on_failbit := false },
        by decide, rfl⟩
    · exact ⟨{ is_open := true, failbit := false, throws_on_failbit := false },
        by decide, rfl⟩

/-! ## The write primitives: equivalence -/

/-- C14: for every text, every flag and every prior state of log and terminal,
`print_stringstream` on a stream whose contents are the text leaves the log
and the terminal exactly as `print_string` on the text does. -/
theorem write_buffer_same_as_write_text (L : Logger) (s : String) (print_to_terminal : Bool) :
    print_stringstream L s print_to_terminal = print_string L s print_to_terminal
    ∧ (print_stringstream L s print_to_terminal).out_log
        = (print_string L s print_to_terminal).out_log
    ∧ (print_stringstream L s print_to_terminal).cout
        = (print_string L s print_to_terminal).cout := by
  have h : print_stringstream L s print_to_terminal = print_string L s print_to_terminal := by
    cases print_to_terminal <;> simp [print_stringstream, print_string]
  exact ⟨h, by rw [h], by rw [h]⟩

/-! ## The catchword report: independence of the topic -/

/-- C18: the text `print_catch_words` renders, and with it what the call
appends to the log and to the terminal, is the same for every two values of
the argument `topic`, the other arguments being equal. -/
theorem catch_words_ignores_topic {F : Type} (showF : F → String) (L : Logger)
    (topic₁ topic₂ : Nat) (catch_threshold : List F) (catchwords : List Nat)
    (vocab_words : List String) (print_to_terminal : Bool) :
    print_catch_words_ostr showF topic₁ catch_threshold catchwords vocab_words
      = print_catch_words_ostr showF topic₂ catch_threshold catchwords vocab_words
    ∧ print_catch_words showF L topic₁ catch_threshold catchwords vocab_words print_to_terminal
      = print_catch_words showF L topic₂ catch_threshold catchwords vocab_words
          print_to_terminal := by
  have h : print_catch_words_ostr showF topic₁ catch_threshold catchwords vocab_words
      = print_catch_words_ostr showF topic₂ catch_threshold catchwords vocab_words := by
    simp only [print_catch_words_ostr]
  refine ⟨h, ?_⟩
  simp only [print_catch_words, h]

/-! ## The cluster summary: layout and safety -/

/-- C13: when the five arrays have `N` entries, every one of the `N` body
lines is the label `Cluster` padded with blanks to 12 characters, the cluster
id, `  size:` padded to 12, the size, `  distsq_sum:` padded to 15, the
distance value, `  raw_coh:` padded to 15, the raw coherence, `  flt_coh:`
padded to 15, the filtered coherence, `  #catchwords: `, the catchword count
and a newline; the values are written without padding. -/
theorem cluster_line_layout {F : Type} (S : StdSort (Int × Nat) cluster_comp)
    (showF : F → String) (N : Nat) (distsq : List F) (catchwords closest_docs : List (List Nat))
    (coherences nl_coherences : List F)
    (hd : distsq.length = N) (hcw : catchwords.length = N) (hcd : closest_docs.length = N)
    (hc : coherences.length = N) (hnl : nl_coherences.length = N) :
    ∃ (recs : List (ClusterLine F)) (catchless : Nat),
      recs.length = N ∧
      print_cluster_details_ostr S showF N distsq catchwords closest_docs coherences
          nl_coherences
        = some (concatAll (recs.map (fun r =>
              "Cluster     " ++ showNat r.id ++ "  size:     " ++ showInt r.size
              ++ "  distsq_sum:  " ++ showF r.distsq ++ "  raw_coh:     " ++ showF r.raw_coh
              ++ "  flt_coh:     " ++ showF r.flt_coh
              ++ "  #catchwords: " ++ showNat r.ncatch ++ "\n"))
            ++ "\n#Topics with no catchwords: " ++ showNat catchless
            ++ "(" ++ showNat N ++ ")" ++ "\n") ∧
      ("Cluster     " : String) = "Cluster" ++ String.mk (List.replicate 5 ' ') ∧
      ("Cluster     " : String).length = 12 ∧
      ("  size:     " : String) = "  size:" ++ String.mk (List.replicate 5 ' ') ∧
      ("  size:     " : String).length = 12 ∧
      ("  distsq_sum:  " : String) = "  distsq_sum:" ++ String.mk (List.replicate 2 ' ') ∧
      ("  distsq_sum:  " : String).length = 15 ∧
      ("  raw_coh:     " : String) = "  raw_coh:" ++ String.mk (List.replicate 5 ' ') ∧
      ("  raw_coh:     " : String).length = 15 ∧
      ("  flt_coh:     " : String) = "  flt_coh:" ++ String.mk (List.replicate 5 ' ') ∧
      ("  flt_coh:     " : String).length = 15 := by
  obtain ⟨keys, recs, hsnd, -, htext, hk, -, -, -, -⟩ :=
    cluster_report S showF N distsq catchwords closest_docs coherences nl_coherences
      hd hcw hcd hc hnl
  have hlen : recs.length = N := by
    simpa using (ids_perm_range S keys recs N hsnd hk).length_eq
  have hfun : cluster_line showF = fun r : ClusterLine F =>
      "Cluster     " ++ showNat r.id ++ "  size:     " ++ showInt r.size
        ++ "  distsq_sum:  " ++ showF r.distsq ++ "  raw_coh:     " ++ showF r.raw_coh
        ++ "  flt_coh:     " ++ showF r.flt_coh
        ++ "  #catchwords: " ++ showNat r.ncatch ++ "\n" :=
    funext (cluster_line_eq showF)
  rw [hfun] at htext
  exact ⟨recs, _, hlen, htext, by decide, by decide, by decide, by decide, by decide,
    by decide, by decide, by decide, by decide, by decide⟩

/-- Instance of `cluster_line_layout`: two topics, values printed in decimal. -/
theorem cluster_line_layout_witness :
    ∃ (recs : List (ClusterLine Nat)) (catchless : Nat),
      recs.length = 2 ∧
      print_cluster_details_ostr stable_sorter showNat 2 [10, 20] [[], [4, 5]]
          [[1, 2, 3], [1, 2, 3, 4, 5, 6, 7]] [1, 2] [3, 4]
        = some (concatAll (recs.map (fun r =>
              "Cluster     " ++ showNat r.id ++ "  size:     " ++ showInt r.size
              ++ "  distsq_sum:  " ++ showNat r.distsq ++ "  raw_coh:     "
              ++ showNat r.raw_coh ++ "  flt_coh:     " ++ showNat r.flt_coh
              ++ "  #catchwords: " ++ showNat r.ncatch ++ "\n"))
            ++ "\n#Topics with no catchwords: " ++ showNat catchless
            ++ "(" ++ showNat 2 ++ ")" ++ "\n") ∧
      ("Cluster     " : String) = "Cluster" ++ String.mk (List.replicate 5 ' ') ∧
      ("Cluster     " : String).length = 12 ∧
      ("  size:     " : String) = "  size:" ++ String.mk (List.replicate 5 ' ') ∧
      ("  size:     " : String).length = 12 ∧
      ("  distsq_sum:  " : String) = "  distsq_sum:" ++ String.mk (List.replicate 2 ' ') ∧
      ("  distsq_sum:  " : String).length = 15 ∧
      ("  raw_coh:     " : String) = "  raw_coh:" ++ String.mk (List.replicate 5 ' ') ∧
      ("  raw_coh:     " : String).length = 15 ∧
      ("  flt_coh:     " : String) = "  flt_coh:" ++ String.mk (List.replicate 5 ' ') ∧
      ("  flt_coh:     " : String).length = 15 :=
  cluster_line_layout stable_sorter showNat 2 [10, 20] [[], [4, 5]]
    [[1, 2, 3], [1, 2, 3, 4, 5, 6, 7]] [1, 2] [3, 4] rfl rfl rfl rfl rfl

/-- C15: when `distsq`, `catchwords`, `closest_docs`, `coherences` and
`nl_coherences` all have exactly `num_topics` entries, `print_cluster_details`
runs to its end without reading outside any of them or outside its table
`cluster_sizes`: both loops complete, the text is rendered and handed to
`print_stringstream`.  This holds for every `num_topics`, 0 included. -/
theorem cluster_no_out_of_range {F : Type} (S : StdSort (Int × Nat) cluster_comp)
    (showF : F → String) (L : Logger) (N : Nat) (distsq : List F)
    (catchwords closest_docs : List (List Nat)) (coherences nl_coherences : List F)
    (print_to_terminal : Bool)
    (hd : distsq.length = N) (hcw : catchwords.length = N) (hcd : closest_docs.length = N)
    (hc : coherences.length = N) (hnl : nl_coherences.length = N) :
    ∃ (cluster_sizes : List (Int × Nat)) (st : String × Int) (ostr : String),
      forLoop (cluster_sizes_step closest_docs) N [] = some cluster_sizes ∧
      forLoop (cluster_body showF distsq catchwords coherences nl_coherences
        (S.sort cluster_sizes)) N ("", 0) = some st ∧
      print_cluster_details_ostr S showF N distsq catchwords closest_docs coherences
          nl_coherences = some ostr ∧
      print_cluster_details S showF L N distsq catchwords closest_docs coherences
          nl_coherences print_to_terminal
        = some (print_stringstream L ostr print_to_terminal) := by
  obtain ⟨keys, hkloop, hsnd, -⟩ := cluster_sizes_loop closest_docs N (by omega)
  have hmem : ∀ p ∈ S.sort keys, p.2 < catchwords.length := by
    intro p hp
    have h1 : p.2 ∈ keys.map Prod.snd :=
      List.mem_map_of_mem Prod.snd ((S.perm keys).mem_iff.mp hp)
    rw [hsnd, List.mem_range] at h1
    omega
  have hlen : (S.sort keys).length = N := by
    rw [(S.perm keys).length_eq, ← List.length_map keys Prod.snd, hsnd, List.length_range]
  obtain ⟨recs, hloop, -⟩ :=
    cluster_body_loop showF distsq catchwords coherences nl_coherences (S.sort keys) hmem
      "" 0 N (by omega) (by omega) (by omega) (by omega)
  have h3 : ∃ ostr, print_cluster_details_ostr S showF N distsq catchwords closest_docs
      coherences nl_coherences = some ostr := by
    simp only [print_cluster_details_ostr, hkloop, Option.some_bind, hloop, Option.map_some']
    exact ⟨_, rfl⟩
  obtain ⟨ostr, h3⟩ := h3
  refine ⟨keys, _, ostr, hkloop, hloop, h3, ?_⟩
  simp only [print_cluster_details, h3, Option.map_some']

/-- Instance of `cluster_no_out_of_range`: no topic and five empty arrays. -/
theorem cluster_no_out_of_range_witness :
    ∃ (cluster_sizes : List (Int × Nat)) (st : String × Int) (ostr : String),
      forLoop (cluster_sizes_step []) 0 [] = some cluster_sizes ∧
      forLoop (cluster_body showNat [] [] [] [] (stable_sorter.sort cluster_sizes)) 0 ("", 0)
        = some st ∧
      print_cluster_details_ostr stable_sorter showNat 0 [] [] [] [] [] = some ostr ∧
      print_cluster_details stable_sorter showNat ⟨"", ""⟩ 0 [] [] [] [] [] true
        = some (print_stringstream ⟨"", ""⟩ ostr true) :=
  cluster_no_out_of_range stable_sorter showNat ⟨"", ""⟩ 0 [] [] [] [] [] true
    rfl rfl rfl rfl rfl

/-! ## The eigenvalue report: first line and slab table -/

/-- The example of the specification for any value type: three eigenvalues
whose square roots print as 2, 3 and 4. -/
theorem eigen_example_any_format {F : Type} [Add F] [Zero F] (showF : F → String)
    (sqrt : F → F) (a b c : F) (ha : showF (sqrt a) = "2") (hb : showF (sqrt b) = "3")
    (hc : showF (sqrt c) = "4") :
    print_eigen_data_ostr showF sqrt [a, b, c] 3
      = some "Eigvals:  (0): 2\t(1): 3\t(2): 4\t\n" := by
  simp only [print_eigen_data_ostr, forLoop, eigvals_step, slab_sum_step,
    List.getElem?_cons_zero, List.getElem?_cons_succ, Option.some_bind, ha, hb, hc,
    Nat.reduceDiv, Nat.zero_add, List.replicate, List.set_cons_zero]
  decide

/-- C17: when `evalues` has at least `n` entries, the slab table of
`print_eigen_data`, allocated with `n / 100 + 1` entries, is never read or
written outside its range: every index `t / 100` with `t < n` is below
`n / 100 + 1`, so every step of the summing loop finds its slot; the loop
returns a table of the same length; every prefix of `slab + 1` entries with
`slab < n / 100` fits in it, so every step of the slab-line loop succeeds;
and the whole function runs to its end. -/
theorem eigen_slab_table_in_range {F : Type} [Add F] [Zero F] (showF : F → String)
    (sqrt : F → F) (evalues : List F) (n : Nat) (hn : n ≤ evalues.length) :
    ∃ slabs : List F,
      forLoop (slab_sum_step evalues) n (List.replicate (n / 100 + 1) 0) = some slabs ∧
      slabs.length = n / 100 + 1 ∧
      (∀ (table : List F) (t : Nat), table.length = n / 100 + 1 → t < n →
        t / 100 < table.length ∧
        ∃ e s, evalues[t]? = some e ∧ table[t / 100]? = some s ∧
          slab_sum_step evalues t table = some (table.set (t / 100) (s + e))) ∧
      (∀ (slab : Nat) (ostr : String), slab < n / 100 →
        1 + slab ≤ slabs.length ∧
        ∃ out, slab_line_step showF slabs slab ostr = some out) ∧
      ∃ ostr, print_eigen_data_ostr showF sqrt evalues n = some ostr := by
  obtain ⟨entries, lines, slabs, hslabs, htext, -, -, -, -⟩ :=
    eigen_report showF sqrt evalues n hn
  obtain ⟨slabs', hslabs', hlen⟩ :=
    slab_sum_loop evalues (List.replicate (n / 100 + 1) 0) n hn (by
      intro t ht
      rw [List.length_replicate]
      exact Nat.lt_succ_of_le (Nat.div_le_div_right (Nat.le_of_lt ht)))
  rw [hslabs] at hslabs'
  have hEq : slabs = slabs' := Option.some.inj hslabs'
  subst hEq
  rw [List.length_replicate] at hlen
  refine ⟨slabs, hslabs, hlen, ?_, ?_, ⟨_, htext⟩⟩
  · intro table t htable ht
    have hidx : t / 100 < table.length := by
      rw [htable]
      exact Nat.lt_succ_of_le (Nat.div_le_div_right (Nat.le_of_lt ht))
    have he : evalues[t]? = some evalues[t] := List.getElem?_eq_getElem (by omega)
    have hs : table[t / 100]? = some table[t / 100] := List.getElem?_eq_getElem hidx
    refine ⟨hidx, evalues[t], table[t / 100], he, hs, ?_⟩
    simp only [slab_sum_step, he, hs]
  · intro slab ostr hslab
    have hle : 1 + slab ≤ slabs.length := by omega
    refine ⟨hle, ?_⟩
    rw [slab_line_step, if_pos hle]
    exact ⟨_, rfl⟩

/-- Instance of `eigen_slab_table_in_range`: 200 eigenvalues, an exact
multiple of 100. -/
theorem eigen_slab_table_in_range_witness :
    ∃ slabs : List Nat,
      forLoop (slab_sum_step (List.replicate 200 1)) 200 (List.replicate (200 / 100 + 1) 0)
        = some slabs ∧
      slabs.length = 200 / 100 + 1 ∧
      (∀ (table : List Nat) (t : Nat), table.length = 200 / 100 + 1 → t < 200 →
        t / 100 < table.length ∧
        ∃ e s, (List.replicate 200 1)[t]? = some e ∧ table[t / 100]? = some s ∧
          slab_sum_step (List.replicate 200 1) t table = some (table.set (t / 100) (s + e))) ∧
      (∀ (slab : Nat) (ostr : String), slab < 200 / 100 →
        1 + slab ≤ slabs.length ∧
        ∃ out, slab_line_step showNat slabs slab ostr = some out) ∧
      ∃ ostr, print_eigen_data_ostr showNat natSqrt (List.replicate 200 1) 200 = some ostr :=
  eigen_slab_table_in_range showNat natSqrt (List.replicate 200 1) 200 (by simp)

/-! ## The cluster summary under a reordering of the topics -/

/-- The pairs of size and catchword count that the body lines display are,
up to their order, the pairs of stored member count and catchword count of
the topics. -/
theorem cluster_pairs_perm {F : Type} (S : StdSort (Int × Nat) cluster_comp)
    (keys : List (Int × Nat)) (recs : List (ClusterLine F)) (rows : List (TopicInput F))
    (hsnd : keys.map Prod.snd = List.range rows.length)
    (hkey : ∀ p ∈ keys, ∃ docs,
      (rows.map (fun x => x.closest_docs))[p.2]? = some docs ∧ p.1 = toInt docs.length)
    (hk : recs.map (fun r => (r.size, r.id)) = S.sort keys)
    (hcat : ∀ r ∈ recs, ∃ cw,
      (rows.map (fun x => x.catchwords))[r.id]? = some cw ∧ r.ncatch = cw.length) :
    List.Perm (recs.map (fun r => (r.size, r.ncatch)))
      (rows.map (fun x => (toInt x.closest_docs.length, x.catchwords.length))) := by
  let g : Int × Nat → Int × Nat := fun p =>
    (p.1, match rows[p.2]? with
      | some x => x.catchwords.length
      | none => 0)
  have h1 : recs.map (fun r => (r.size, r.ncatch))
      = (recs.map (fun r => (r.size, r.id))).map g := by
    rw [List.map_map]
    apply List.map_congr_left
    intro r hr
    obtain ⟨cw, hcw, hn⟩ := hcat r hr
    rw [List.getElem?_map] at hcw
    cases hx : rows[r.id]? with
    | none => rw [hx] at hcw; exact absurd hcw (by simp)
    | some x =>
      rw [hx] at hcw
      have hxc : x.catchwords = cw := by simpa using hcw
      simp only [Function.comp, g, hx, hxc, hn]
  have h3 : keys.map g
      = rows.map (fun x => (toInt x.closest_docs.length, x.catchwords.length)) := by
    have hlen : keys.length = rows.length := by
      have := congrArg List.length hsnd
      simpa using this
    apply List.ext_getElem (by simp [hlen])
    intro i hi1 hi2
    have hik : i < keys.length := by simpa using hi1
    have hir : i < rows.length := by simpa using hi2
    have hki : keys[i]? = some keys[i] := List.getElem?_eq_getElem hik
    have hri : rows[i]? = some rows[i] := List.getElem?_eq_getElem hir
    have hsndi : keys[i].2 = i := by
      have h := congrArg (fun l => l[i]?) hsnd
      simp only [List.getElem?_map, hki, Option.map_some', List.getElem?_range hir,
        Option.some.injEq] at h
      exact h
    obtain ⟨docs, hdocs, hsize⟩ := hkey keys[i] (List.getElem_mem hik)
    rw [hsndi, List.getElem?_map, hri] at hdocs
    have hdocs' : rows[i].closest_docs = docs := by simpa using hdocs
    simp only [List.getElem_map, g, hsndi, hri, hsize, hdocs']
  rw [h1, hk, ← h3]
  exact (S.perm keys).map g

/-- C11 (as stated, refuted): two topics with equal distances, coherences and
catchword lists, and 3 and 7 closest documents.  Swapping the two entries of
every array changes the rendered text: the line of size 3 displays cluster 0
before the swap and cluster 1 after it. -/
theorem cluster_text_changes_under_swap :
    print_cluster_details_ostr stable_sorter showNat 2 [5, 5] [[], []]
        [[1, 2, 3], [1, 2, 3, 4, 5, 6, 7]] [2, 2] [1, 1]
      = some ("Cluster     0  size:     3  distsq_sum:  5  raw_coh:     1"
          ++ "  flt_coh:     2  #catchwords: 0\n"
          ++ "Cluster     1  size:     7  distsq_sum:  5  raw_coh:     1"
          ++ "  flt_coh:     2  #catchwords: 0\n"
          ++ "\n#Topics with no catchwords: 2(2)\n")
    ∧ print_cluster_details_ostr stable_sorter showNat 2 [5, 5] [[], []]
        [[1, 2, 3, 4, 5, 6, 7], [1, 2, 3]] [2, 2] [1, 1]
      = some ("Cluster     1  size:     3  distsq_sum:  5  raw_coh:     1"
          ++ "  flt_coh:     2  #catchwords: 0\n"
          ++ "Cluster     0  size:     7  distsq_sum:  5  raw_coh:     1"
          ++ "  flt_coh:     2  #catchwords: 0\n"
          ++ "\n#Topics with no catchwords: 2(2)\n")
    ∧ print_cluster_details_ostr stable_sorter showNat 2 [5, 5] [[], []]
        [[1, 2, 3], [1, 2, 3, 4, 5, 6, 7]] [2, 2] [1, 1]
      ≠ print_cluster_details_ostr stable_sorter showNat 2 [5, 5] [[], []]
        [[1, 2, 3, 4, 5, 6, 7], [1, 2, 3]] [2, 2] [1, 1] := by
  refine ⟨by decide, by decide, by decide⟩

/-- What `cluster_report` gives for an input presented topic by topic. -/
theorem cluster_report_rows {F : Type} (S : StdSort (Int × Nat) cluster_comp)
    (showF : F → String) (rows : List (TopicInput F)) :
    ∃ recs : List (ClusterLine F),
      print_cluster_details_ostr S showF rows.length
          (rows.map (fun x => x.distsq)) (rows.map (fun x => x.catchwords))
          (rows.map (fun x => x.closest_docs)) (rows.map (fun x => x.coherence))
          (rows.map (fun x => x.nl_coherence))
        = some (concatAll (recs.map (cluster_line showF)) ++ "\n#Topics with no catchwords: "
            ++ showNat (recs.countP (fun r => decide (r.ncatch = 0)))
            ++ "(" ++ showNat rows.length ++ ")" ++ "\n") ∧
      recs.length = rows.length ∧
      List.Pairwise (fun a b : Int => a ≤ b) (recs.map (fun r => r.size)) ∧
      List.Perm (recs.map (fun r => (r.size, r.ncatch)))
        (rows.map (fun x => (toInt x.closest_docs.length, x.catchwords.length))) := by
  obtain ⟨keys, recs, hsnd, hkey, htext, hk, -, -, -, hcat⟩ :=
    cluster_report S showF rows.length (rows.map (fun x => x.distsq))
      (rows.map (fun x => x.catchwords)) (rows.map (fun x => x.closest_docs))
      (rows.map (fun x => x.coherence)) (rows.map (fun x => x.nl_coherence))
      (List.length_map _ _) (List.length_map _ _) (List.length_map _ _)
      (List.length_map _ _) (List.length_map _ _)
  refine ⟨recs, htext, ?_, sizes_sorted S keys recs hk,
    cluster_pairs_perm S keys recs rows hsnd hkey hk hcat⟩
  simpa using (ids_perm_range S keys recs rows.length hsnd hk).length_eq

/-- C11 (amended): present the input topic by topic, so that applying one
permutation to the five parallel arrays is reordering the list of topics.
Both the input and the reordered input are rendered; the two texts have the
same number of body lines, the same sizes from the first body line to the
last, the same pairs of size and catchword count up to the order of lines
with equal sizes, and the same trailing summary line.  Nothing is said of the
cluster ids, which follow the reordering, nor of the distance and coherence
values. -/
theorem cluster_text_under_permutation {F : Type} (S : StdSort (Int × Nat) cluster_comp)
    (showF : F → String) (rows rows' : List (TopicInput F)) (hperm : List.Perm rows' rows) :
    ∃ (recs recs' : List (ClusterLine F)) (catchless : Nat),
      print_cluster_details_ostr S showF rows.length
          (rows.map (fun x => x.distsq)) (rows.map (fun x => x.catchwords))
          (rows.map (fun x => x.closest_docs)) (rows.map (fun x => x.coherence))
          (rows.map (fun x => x.nl_coherence))
        = some (concatAll (recs.map (cluster_line showF)) ++ "\n#Topics with no catchwords: "
            ++ showNat catchless ++ "(" ++ showNat rows.length ++ ")" ++ "\n") ∧
      print_cluster_details_ostr S showF rows'.length
          (rows'.map (fun x => x.distsq)) (rows'.map (fun x => x.catchwords))
          (rows'.map (fun x => x.closest_docs)) (rows'.map (fun x => x.coherence))
          (rows'.map (fun x => x.nl_coherence))
        = some (concatAll (recs'.map (cluster_line showF)) ++ "\n#Topics with no catchwords: "
            ++ showNat catchless ++ "(" ++ showNat rows.length ++ ")" ++ "\n") ∧
      recs.length = rows.length ∧ recs'.length = rows.length ∧
      recs'.map (fun r => r.size) = recs.map (fun r => r.size) ∧
      List.Perm (recs'.map (fun r => (r.size, r.ncatch)))
        (recs.map (fun r => (r.size, r.ncatch))) := by
  obtain ⟨recs, htext, hlen, hsorted, hpairs⟩ := cluster_report_rows S showF rows
  obtain ⟨recs', htext', hlen', hsorted', hpairs'⟩ := cluster_report_rows S showF rows'
  have hpp : List.Perm (recs'.map (fun r => (r.size, r.ncatch)))
      (recs.map (fun r => (r.size, r.ncatch))) :=
    (hpairs'.trans (hperm.map _)).trans hpairs.symm
  have hsizes : List.Perm (recs'.map (fun r => r.size)) (recs.map (fun r => r.size)) := by
    have := hpp.map Prod.fst
    simpa [List.map_map, Function.comp] using this
  have hcount : recs'.countP (fun r => decide (r.ncatch = 0))
      = recs.countP (fun r => decide (r.ncatch = 0)) := by
    have := hpp.countP_eq (fun q : Int × Nat => decide (q.2 = 0))
    simpa [List.countP_map, Function.comp] using this
  have hl : rows'.length = rows.length := hperm.length_eq
  refine ⟨recs, recs', _, htext, ?_, hlen, by rw [hlen', hl], ?_, hpp⟩
  · rw [htext', hcount, hl]
  · exact List.eq_of_perm_of_sorted hsizes hsorted' hsorted

/-- Instance of `cluster_text_under_permutation`: two topics and the same two
topics in the other order. -/
theorem cluster_text_under_permutation_witness :
    ∃ (recs recs' : List (ClusterLine Nat)) (catchless : Nat),
      print_cluster_details_ostr stable_sorter showNat two_topics.length
          (two_topics.map (fun x => x.distsq)) (two_topics.map (fun x => x.catchwords))
          (two_topics.map (fun x => x.closest_docs)) (two_topics.map (fun x => x.coherence))
          (two_topics.map (fun x => x.nl_coherence))
        = some (concatAll (recs.map (cluster_line showNat)) ++ "\n#Topics with no catchwords: "
            ++ showNat catchless ++ "(" ++ showNat two_topics.length ++ ")" ++ "\n") ∧
      print_cluster_details_ostr stable_sorter showNat two_topics_swapped.length
          (two_topics_swapped.map (fun x => x.distsq)) (two_topics_swapped.map (fun x => x.catchwords))
          (two_topics_swapped.map (fun x => x.closest_docs)) (two_topics_swapped.map (fun x => x.coherence))
          (two_topics_swapped.map (fun x => x.nl_coherence))
        = some (concatAll (recs'.map (cluster_line showNat)) ++ "\n#Topics with no catchwords: "
            ++ showNat catchless ++ "(" ++ showNat two_topics.length ++ ")" ++ "\n") ∧
      recs.length = two_topics.length ∧ recs'.length = two_topics.length ∧
      recs'.map (fun r => r.size) = recs.map (fun r => r.size) ∧
      List.Perm (recs'.map (fun r => (r.size, r.ncatch)))
        (recs.map (fun r => (r.size, r.ncatch))) :=
  cluster_text_under_permutation stable_sorter showNat
    two_topics two_topics_swapped
    (List.Perm.swap _ _ _)

end ISLE
